import Mathlib

/-!
Shallow embedding of `nautobot_device_onboarding/nornir_plays/formatter.py`.

Python values flowing through the formatter are modelled by the inductive
type `Val` (JSON-like data: strings, integers, booleans, `None`, lists and
string-keyed insertion-ordered dictionaries).  Python dictionaries are
association lists preserving insertion order, as CPython does; assigning an
existing key keeps its position, a new key is appended, `del` removes the
entry so a later re-insertion appends at the end.

Fallible Python code (subscript `KeyError`/`TypeError`, iteration over a
non-iterable, ...) is modelled in `Except String`; the error payload is a
human-readable tag standing for the Python exception (exact exception
message texts are not modelled character-for-character).

External collaborators that the source imports are passed as parameters:
`canonical_interface_name` (netutils), the interface type table
(`INTERFACE_TYPE_MAP_STATIC` from `constants.py`, not part of the sources),
the Jinja renderer, `json.loads`, `jdiff.extract_data_from_json` and the
Nautobot serial lookup (`Device.objects.get(name=...).serial`).
-/

namespace Formatter

/-- A Python value as used by the formatter: JSON-like data. -/
inductive Val where
  | s : String → Val
  | i : Int → Val
  | b : Bool → Val
  | null : Val
  | list : List Val → Val
  | dict : List (String × Val) → Val
deriving Repr

/-- A Python dictionary with string keys, as an insertion-ordered
association list. -/
abbrev Obj := List (String × Val)

/-- Dictionary lookup (`d.get(k)` / `d[k]` when present). -/
def dlookup : Obj → String → Option Val
  | [], _ => none
  | (k, v) :: rest, key => if k = key then some v else dlookup rest key

/-- Python `k in d`. -/
def hasKey (d : Obj) (key : String) : Bool :=
  (dlookup d key).isSome

/-- Python `d[k] = v`: replace in place if the key exists, else append. -/
def dset : Obj → String → Val → Obj
  | [], key, v => [(key, v)]
  | (k, w) :: rest, key, v =>
      if k = key then (k, v) :: rest else (k, w) :: dset rest key v

/-- Python `del d[k]`: `none` models the `KeyError` on a missing key. -/
def ddel : Obj → String → Option Obj
  | [], _ => none
  | (k, w) :: rest, key =>
      if k = key then some rest else (ddel rest key).map ((k, w) :: ·)

/-- Python `d.update(r)`: assign every pair of `r` in order. -/
def dupdate (d : Obj) (r : Obj) : Obj :=
  r.foldl (fun acc kv => dset acc kv.1 kv.2) d

/-- Python structural equality `==` on values (numeric/bool cross-type
equalities such as `True == 1` are not needed by this code and are not
modelled). -/
def valEq : Val → Val → Bool
  | .s a, .s c => a = c
  | .i a, .i c => a = c
  | .b a, .b c => a = c
  | .null, .null => true
  | .list a, .list c => valEqList a c
  | .dict a, .dict c => valEqDict a c
  | _, _ => false
where
  valEqList : List Val → List Val → Bool
    | [], [] => true
    | x :: xs, y :: ys => valEq x y && valEqList xs ys
    | _, _ => false
  valEqDict : List (String × Val) → List (String × Val) → Bool
    | [], [] => true
    | (k, x) :: xs, (k2, y) :: ys => k = k2 && valEq x y && valEqDict xs ys
    | _, _ => false

/-- Python truthiness (`if value:`). -/
def pyTruthy : Val → Bool
  | .s st => st ≠ ""
  | .i n => n ≠ 0
  | .b v => v
  | .null => false
  | .list l => !l.isEmpty
  | .dict d => !d.isEmpty

/-- Python `repr` of a value, used by f-strings for payloads embedded in
failure reasons.  String quoting uses double quotes and the exact escaping
of Python is not reproduced; no theorem depends on this text. -/
def pyRepr : Val → String
  | .s st => "\"" ++ st ++ "\""
  | .i n => toString n
  | .b true => "True"
  | .b false => "False"
  | .null => "None"
  | .list l => "[" ++ String.intercalate ", " (pyReprList l) ++ "]"
  | .dict d => "\x7b" ++ String.intercalate ", " (pyReprObj d) ++ "\x7d"
where
  pyReprList : List Val → List String
    | [] => []
    | v :: rest => pyRepr v :: pyReprList rest
  pyReprObj : List (String × Val) → List String
    | [] => []
    | (k, v) :: rest => ("\"" ++ k ++ "\": " ++ pyRepr v) :: pyReprObj rest

/-- Python `str(v)` as used in f-string interpolation. -/
def pyStr : Val → String
  | .s st => st
  | v => pyRepr v

/-- Python subscript `v[k]` on a value: `KeyError` on a missing key,
`TypeError` when the value is not a mapping. -/
def getItem (v : Val) (key : String) : Except String Val :=
  match v with
  | .dict d =>
      match dlookup d key with
      | some x => .ok x
      | none => .error ("KeyError " ++ key)
  | _ => .error ("TypeError subscript " ++ key)

/-- Require a Python `str` (e.g. for use as a dictionary key in this model,
or as a template source). -/
def asStr : Val → Except String String
  | .s st => .ok st
  | _ => .error "TypeError expected str"

/-- Python iteration `for x in v`: lists yield elements, strings yield
one-character strings, dicts yield their keys; other values raise. -/
def pyIter : Val → Except String (List Val)
  | .list l => .ok l
  | .s st => .ok (st.toList.map (fun c => .s (String.mk [c])))
  | .dict d => .ok (d.map (fun kv => .s kv.1))
  | _ => .error "TypeError not iterable"

/-!
Platform normalizers (`format_ios_results`, `format_nxos_results`,
formatter.py lines 127-352).

The local variable `interface_dict` maps interface names to per-interface
record dictionaries; since its values are always dictionaries it is
modelled as `IDict`.  The Python functions mutate the caller's `device`
dictionary only from the line `device["interfaces"] = interface_list`
onwards; on an exception inside steps 1-6 the caller-visible dictionary is
therefore unchanged while the *returned* value is the rebound failure
record.  Both are modelled: the result is the pair
`(caller-visible dictionary, returned value)`.
-/

/-- `interface_dict`: interface name → per-interface record. -/
abbrev IDict := List (String × Obj)

/-- Lookup in `interface_dict`. -/
def ilookup : IDict → String → Option Obj
  | [], _ => none
  | (k, v) :: rest, key => if k = key then some v else ilookup rest key

/-- Key presence in `interface_dict`. -/
def hasIKey (d : IDict) (key : String) : Bool :=
  (ilookup d key).isSome

/-- Assignment in `interface_dict` (replace in place or append). -/
def iset : IDict → String → Obj → IDict
  | [], key, v => [(key, v)]
  | (k, w) :: rest, key, v =>
      if k = key then (k, v) :: rest else (k, w) :: iset rest key v

/-- `ensure_list` (formatter.py lines 120-124). -/
def ensure_list (data : Val) : List Val :=
  match data with
  | .list l => l
  | v => [v]

/-- `map_interface_type` (formatter.py lines 110-117).  The static table
`INTERFACE_TYPE_MAP_STATIC` lives in `constants.py`, outside the sources,
so it is a parameter; `.get(interface_type, "other")` returns `"other"`
for any unmapped (in particular any non-string) value. -/
def map_interface_type (typeMap : List (String × String)) (v : Val) : Val :=
  match v with
  | .s t =>
      match typeMap.lookup t with
      | some m => .s m
      | none => .s "other"
  | _ => .s "other"

/-- One `for item in <field>_list:` body of the normalizers: compute the
dictionary key from the item (`getKey`), fetch-or-create the per-interface
record (Python `interface_dict.setdefault(key, {})`), and update it
(`upd`). -/
def fieldStep (getKey : Val → Except String String)
    (upd : Val → Obj → Except String Obj)
    (d : IDict) (item : Val) : Except String IDict := do
  let k ← getKey item
  let sub := (ilookup d k).getD []
  let sub2 ← upd item sub
  .ok (iset d k sub2)

/-- Fold a per-item action over one attribute list, stopping at the first
exception. -/
def foldItems (f : IDict → Val → Except String IDict) :
    IDict → List Val → Except String IDict
  | d, [] => .ok d
  | d, item :: rest => do
      foldItems f (← f d item) rest

/-- One attribute-list pass: the key function, the record update and the
list iterated over. -/
abbrev Stage :=
  (Val → Except String String) × (Val → Obj → Except String Obj) × List Val

/-- Run the attribute-list passes in order (the successive `for` loops of
the normalizers). -/
def runStages : IDict → List Stage → Except String IDict
  | d, [] => .ok d
  | d, (gk, gu, l) :: rest => do
      runStages (← foldItems (fieldStep gk gu) d l) rest

/-- `item["interface"]`, required to be a string key. -/
def ifaceKey (item : Val) : Except String String := do
  asStr (← getItem item "interface")

/-- `canonical_interface_name(item["interface"])` (IOS vlan-mode pass). -/
def canonKey (canonical : String → String) (item : Val) :
    Except String String := do
  pure (canonical (← ifaceKey item))

/-- `interface_dict.setdefault(...)["mtu"] = item["mtu"]`. -/
def mtuUpd (item : Val) (sub : Obj) : Except String Obj := do
  pure (dset sub "mtu" (← getItem item "mtu"))

/-- `... ["type"] = map_interface_type(item["type"])`. -/
def typeUpd (typeMap : List (String × String)) (item : Val) (sub : Obj) :
    Except String Obj := do
  pure (dset sub "type" (map_interface_type typeMap (← getItem item "type")))

/-- `... ["ip_addresses"] = {"ip_address": item["ip_address"]}`. -/
def ipUpd (item : Val) (sub : Obj) : Except String Obj := do
  pure (dset sub "ip_addresses" (.dict [("ip_address", ← getItem item "ip_address")]))

/-- `... .setdefault("ip_addresses", {})["prefix_length"] = item["prefix_length"]`. -/
def prefixUpd (item : Val) (sub : Obj) : Except String Obj := do
  let pl ← getItem item "prefix_length"
  match (dlookup sub "ip_addresses").getD (.dict []) with
  | .dict o => pure (dset sub "ip_addresses" (.dict (dset o "prefix_length" pl)))
  | _ => .error "TypeError subscript prefix_length"

/-- `... ["mac_address"] = item["mac_address"]`. -/
def macUpd (item : Val) (sub : Obj) : Except String Obj := do
  pure (dset sub "mac_address" (← getItem item "mac_address"))

/-- `... ["description"] = item["description"]`. -/
def descUpd (item : Val) (sub : Obj) : Except String Obj := do
  pure (dset sub "description" (← getItem item "description"))

/-- `... ["link_status"] = True if item["link_status"] == "up" else False`. -/
def linkUpd (item : Val) (sub : Obj) : Except String Obj := do
  pure (dset sub "link_status" (.b (valEq (← getItem item "link_status") (.s "up"))))

/-- IOS: `... ["802.1Q_mode"] = "tagged" if item["vlan_id"] == "trunk" else "access"`. -/
def modeUpdIos (item : Val) (sub : Obj) : Except String Obj := do
  let v ← getItem item "vlan_id"
  pure (dset sub "802.1Q_mode" (.s (if valEq v (.s "trunk") then "tagged" else "access")))

/-- NX-OS: `"access" if item["mode"] == "access" else "tagged" if item["mode"] == "trunk" else ""`. -/
def modeUpdNxos (item : Val) (sub : Obj) : Except String Obj := do
  let v ← getItem item "mode"
  pure (dset sub "802.1Q_mode"
    (.s (if valEq v (.s "access") then "access"
         else if valEq v (.s "trunk") then "tagged" else "")))

/-- The `default_values` of `format_ios_results` (lines 178-184). -/
def iosDefaults : List (String × Val) :=
  [("lag", .s ""), ("untagged_vlan", .dict []), ("tagged_vlans", .list []),
   ("vrf", .dict []), ("802.1Q_mode", .s "")]

/-- The `default_values` of `format_nxos_results` (line 299). -/
def nxosDefaults : List (String × Val) :=
  [("lag", .s ""), ("untagged_vlan", .dict []), ("tagged_vlans", .list []),
   ("vrf", .dict [])]

/-- `interface.setdefault(key, default)` for every default on one record
(normalizer step 4). -/
def setdefaults (dv : List (String × Val)) (rec : Obj) : Obj :=
  dv.foldl (fun r (p : String × Val) =>
    if hasKey r p.1 then r else dset r p.1 p.2) rec

/-- The defaults pass, applied to every interface record. -/
def applyDefaults (dv : List (String × Val)) (d : IDict) : IDict :=
  d.map (fun kv => (kv.1, setdefaults dv kv.2))

/-- `if ip_addresses: data["ip_addresses"] = [ip_addresses]` on one
record (wrap the merged address mapping into a one-element list). -/
def wrapRecord (rec : Obj) : Obj :=
  let ipa := (dlookup rec "ip_addresses").getD (.dict [])
  if pyTruthy ipa then dset rec "ip_addresses" (.list [ipa]) else rec

/-- The address-wrapping pass, applied to every interface record. -/
def wrapIp (d : IDict) : IDict :=
  d.map (fun kv => (kv.1, wrapRecord kv.2))

/-- `str.startswith`, computed on the character list (equivalent to
`String.startsWith`, but reducible by the kernel). -/
def strStartsWith (s p : String) : Bool :=
  p.data.isPrefixOf s.data

/-- Drop the first `n` characters (equivalent to `String.drop`). -/
def strDrop (s : String) (n : Nat) : String :=
  String.mk (s.data.drop n)

/-- VRF-membership key: canonicalize, then rewrite a leading `VLAN` to
`Vlan` (`canonical_name.replace("VLAN", "Vlan", 1)` under the
`startswith("VLAN")` guard rewrites exactly the prefix). -/
def vrfMemberKey (canonical : String → String) (member : Val) :
    Except String String := do
  let cn := canonical (← asStr member)
  pure (if strStartsWith cn "VLAN" then "Vlan" ++ strDrop cn 4 else cn)

/-- `interface_dict[canonical_name]["vrf"] = {"name": vrf["name"], "rd": vrf["default_rd"]}`. -/
def vrfSetUpd (vrf : Val) (_member : Val) (sub : Obj) : Except String Obj := do
  let n ← getItem vrf "name"
  let rd ← getItem vrf "default_rd"
  pure (dset sub "vrf" (.dict [("name", n), ("rd", rd)]))

/-- IOS step 5 for one VRF: iterate `vrf["interfaces"]` and set the `vrf`
sub-mapping on each member (creating missing entries). -/
def vrfMergeIos (canonical : String → String) (d : IDict) (vrf : Val) :
    Except String IDict := do
  let members ← pyIter (← getItem vrf "interfaces")
  foldItems (fieldStep (vrfMemberKey canonical) (vrfSetUpd vrf)) d members

/-- NX-OS step 5 for one VRF: guarded by `if "interfaces" in vrf:`. -/
def vrfMergeNxos (canonical : String → String) (d : IDict) (vrf : Val) :
    Except String IDict := do
  match vrf with
  | .dict o =>
      match dlookup o "interfaces" with
      | some ifs => do
          let members ← pyIter ifs
          foldItems (fieldStep (vrfMemberKey canonical) (vrfSetUpd vrf)) d members
      | none => .ok d
  | _ => .error "TypeError membership test"

/-- The attribute-list passes of `format_ios_results` (lines 156-191), in
source order. -/
def iosStages (typeMap : List (String × String))
    (device : Obj) : List Stage :=
  [(ifaceKey, mtuUpd, ensure_list ((dlookup device "mtu").getD (.list []))),
   (ifaceKey, typeUpd typeMap, ensure_list ((dlookup device "type").getD (.list []))),
   (ifaceKey, ipUpd, ensure_list ((dlookup device "ip_addresses").getD (.list []))),
   (ifaceKey, prefixUpd, ensure_list ((dlookup device "prefix_length").getD (.list []))),
   (ifaceKey, macUpd, ensure_list ((dlookup device "mac_address").getD (.list []))),
   (ifaceKey, descUpd, ensure_list ((dlookup device "description").getD (.list []))),
   (ifaceKey, linkUpd, ensure_list ((dlookup device "link_status").getD (.list [])))]

/-- The IOS vlan-mode pass (lines 186-191), indexed by the canonical name. -/
def iosModeStage (canonical : String → String) (device : Obj) : Stage :=
  (canonKey canonical, modeUpdIos,
   ensure_list ((dlookup device "mode").getD (.list [])))

/-- `vrf_list` of `format_ios_results` (lines 138, 151-154). -/
def iosVrfList (device : Obj) : List Val :=
  match (dlookup device "vrfs").getD (.list []) with
  | .null => []
  | v => ensure_list v

/-- Steps 1-6 of `format_ios_results` (lines 130-217): build the
`interfaces` list.  `interface_list` is built *before* the VRF merge but
its entries alias the records of `interface_dict`, so the merge is visible
through it for interfaces that already existed; entries first created by
the merge are not in the list.  This aliasing is modelled by snapshotting
the keys before the merge and reading the merged records afterwards. -/
def iosCompute (canonical : String → String) (typeMap : List (String × String))
    (device : Obj) : Except String (List Val) := do
  let d8 ← runStages []
    (iosStages typeMap device ++ [iosModeStage canonical device])
  let d9 := wrapIp (applyDefaults iosDefaults d8)
  let snapshot := d9.map Prod.fst
  let d10 ← foldItems (vrfMergeIos canonical) d9 (iosVrfList device)
  pure (snapshot.map (fun k =>
    Val.dict [(canonical k, .dict ((ilookup d10 k).getD []))]))

/-- The flat per-field keys deleted by `format_ios_results` step 7
(lines 223-231), in order. -/
def iosDelKeys : List String :=
  ["mtu", "type", "ip_addresses", "prefix_length", "mac_address",
   "description", "link_status", "vrfs", "mode"]

/-- The flat per-field keys deleted by `format_nxos_results` step 7
(lines 337-346), in order. -/
def nxosDelKeys : List String :=
  ["mtu", "type", "ip_addresses", "prefix_length", "mac_address",
   "description", "link_status", "mode", "vrf_rds", "vrf_interfaces"]

/-- Sequential `del device[k]`: on the first missing key, return the
dictionary as deleted so far together with `false` (the `KeyError`). -/
def delAll : Obj → List String → Obj × Bool
  | d, [] => (d, true)
  | d, k :: rest =>
      match ddel d k with
      | some d2 => delAll d2 rest
      | none => (d, false)

/-- `format_ios_results` (lines 127-238), as the pair
`(caller-visible dictionary, returned value)`:

* steps 1-6 raise → the caller's dictionary is untouched (the failure
  record only rebinds the local `device`), and the returned value is
  `{failed: True, failed_reason: "Formatting error 1 <e> for device <payload>"}`;
* cleanup `del` raises `KeyError` → the caller's dictionary keeps
  `interfaces`, `serial` and the deletions made so far, and the returned
  value is the failure record with the payload formatted *after* those
  mutations;
* otherwise both components are the fully formatted dictionary. -/
def format_ios_results (canonical : String → String)
    (typeMap : List (String × String)) (device : Obj) : Obj × Obj :=
  match iosCompute canonical typeMap device with
  | .error e =>
      (device,
       [("failed", .b true),
        ("failed_reason",
         .s ("Formatting error 1 " ++ e ++ " for device " ++ pyRepr (.dict device)))])
  | .ok interface_list =>
      let serial := (dlookup device "serial").getD .null
      let d2 := dset (dset device "interfaces" (.list interface_list)) "serial" serial
      match delAll d2 iosDelKeys with
      | (d3, true) => (d3, d3)
      | (d3, false) =>
          (d3,
           [("failed", .b true),
            ("failed_reason",
             .s ("Formatting error 2 for device " ++ pyRepr (.dict d3)))])

/-- The attribute-list passes of `format_nxos_results` (lines 274-297), in
source order; the vlan-mode pass is keyed by the raw interface name. -/
def nxosStages (typeMap : List (String × String))
    (device : Obj) : List Stage :=
  iosStages typeMap device ++
  [(ifaceKey, modeUpdNxos, ensure_list ((dlookup device "mode").getD (.list [])))]

/-- `vrfs_rds` of `format_nxos_results` (lines 253, 265-268). -/
def nxosVrfRds (device : Obj) : List Val :=
  match (dlookup device "vrf_rds").getD (.list []) with
  | .null => []
  | v => ensure_list v

/-- `vrfs_interfaces` of `format_nxos_results` (lines 254, 269-272). -/
def nxosVrfInterfaces (device : Obj) : List Val :=
  match (dlookup device "vrf_interfaces").getD (.list []) with
  | .null => []
  | v => ensure_list v

/-- `vrf_dict = {vrf["id"]: vrf for vrf in vrfs_rds}` (line 316): keys may
be arbitrary hashable values, so this association list is keyed by `Val`;
a duplicate id keeps its first position with the later value. -/
def buildVrfDict : List (Val × Obj) → List Val → Except String (List (Val × Obj))
  | acc, [] => .ok acc
  | acc, v :: rest =>
      match v with
      | .dict o =>
          match dlookup o "id" with
          | some id => buildVrfDict (vsetV acc id o) rest
          | none => .error "KeyError id"
      | _ => .error "TypeError subscript id"
where
  vsetV : List (Val × Obj) → Val → Obj → List (Val × Obj)
    | [], key, v => [(key, v)]
    | (k, w) :: rest, key, v =>
        if valEq k key then (k, v) :: rest else (k, w) :: vsetV rest key v

/-- Lookup `vrf_dict[vrf_id]` (Python `==`-based; a missing id raises). -/
def vlookupV : List (Val × Obj) → Val → Except String Obj
  | [], _ => .error "KeyError vrf_id"
  | (k, w) :: rest, key => if valEq k key then .ok w else vlookupV rest key

/-- The `vrfs_interfaces` loop (lines 318-322): append each member
interface to its VRF's `interfaces` list, creating the list if absent. -/
def addVrfInterfaces : List (Val × Obj) → List Val → Except String (List (Val × Obj))
  | acc, [] => .ok acc
  | acc, item :: rest => do
      let vrfId ← getItem item "id"
      let o ← vlookupV acc vrfId
      let o2 ←
        match dlookup o "interfaces" with
        | none => do
            pure (dset o "interfaces" (.list [← getItem item "interface"]))
        | some (.list l) => do
            pure (dset o "interfaces" (.list (l ++ [← getItem item "interface"])))
        | some _ => .error "AttributeError append"
      addVrfInterfaces (buildVrfDict.vsetV acc vrfId o2) rest

/-- Steps 1-6 of `format_nxos_results` (lines 244-332), producing the
`interfaces` list with the same aliasing model as `iosCompute`. -/
def nxosCompute (canonical : String → String) (typeMap : List (String × String))
    (device : Obj) : Except String (List Val) := do
  let d8 ← runStages [] (nxosStages typeMap device)
  let d9 := wrapIp (applyDefaults nxosDefaults d8)
  let snapshot := d9.map Prod.fst
  let vd ← buildVrfDict [] (nxosVrfRds device)
  let vd2 ← addVrfInterfaces vd (nxosVrfInterfaces device)
  let vrf_list := vd2.map (fun kv => Val.dict kv.2)
  let d10 ← foldItems (vrfMergeNxos canonical) d9 vrf_list
  pure (snapshot.map (fun k =>
    Val.dict [(canonical k, .dict ((ilookup d10 k).getD []))]))

/-- `format_nxos_results` (lines 241-352); same caller/return split as
`format_ios_results`, with the NX-OS failure message (no exception text,
same wording for both failure sites). -/
def format_nxos_results (canonical : String → String)
    (typeMap : List (String × String)) (device : Obj) : Obj × Obj :=
  match nxosCompute canonical typeMap device with
  | .error _ =>
      (device,
       [("failed", .b true),
        ("failed_reason",
         .s ("Formatting error for device " ++ pyRepr (.dict device)))])
  | .ok interface_list =>
      let serial := (dlookup device "serial").getD .null
      let d2 := dset (dset device "interfaces" (.list interface_list)) "serial" serial
      match delAll d2 nxosDelKeys with
      | (d3, true) => (d3, d3)
      | (d3, false) =>
          (d3,
           [("failed", .b true),
            ("failed_reason",
             .s ("Formatting error for device " ++ pyRepr (.dict d3)))])

/-!
Field extractor and extraction driver (`perform_data_extraction`,
`extract_show_data`, formatter.py lines 33-107).

The Jinja environment, `json.loads` and `jdiff.extract_data_from_json` are
parameters:

* `render tpl obj host` models `j2_env.from_string(tpl).render({"obj": obj,
  "original_host": host})` — for the jpath template `obj` is the host name,
  for the post-processor it is the extracted value; a `.error` is a raised
  template error (e.g. `StrictUndefined` on an unknown variable), which the
  source does not catch;
* `jloads text` models `json.loads`: `none` is a `json.decoder.JSONDecodeError`
  (the only exception the source catches here);
* `extractJson doc jpath` models `extract_data_from_json`; a `.error` is a
  raised query/type-mismatch error, which the source does not catch.
-/

/-- One nornir task result, as consumed by the extractor. -/
structure TaskResult where
  name : String
  failed : Bool
  result : Val

/-- Lines 41-51: obtain `extracted_value` from the task result.  A string
result is first decoded as JSON; a decode failure is caught and degrades
the value to `None`.  Errors raised by the path-query evaluator itself
propagate. -/
def rawExtract (jloads : String → Option Val)
    (extractJson : Val → String → Except String Val)
    (tr : TaskResult) (rendered : String) : Except String Val :=
  match tr.result with
  | .s text =>
      match jloads text with
      | some doc => extractJson doc rendered
      | none => .ok .null
  | other => extractJson other rendered

/-- Lines 57-61: without a post-processor, a one-element list result is
unwrapped to its sole element, whatever it is. -/
def flattenSingleton : Val → Val
  | .list [x] => x
  | v => v

/-- The truthiness of an optional value, modelling `d.get(k)` used in a
boolean context. -/
def truthyOpt : Option Val → Bool
  | some v => pyTruthy v
  | none => false

/-- `v.get(k)` on a value already known to be a dictionary (the preceding
`v[k2]` subscript has raised otherwise). -/
def getOpt (v : Val) (key : String) : Option Val :=
  match v with
  | .dict d => dlookup d key
  | _ => none

/-- The `for show_command in command_info_dict["commands"]` loop of
`perform_data_extraction` (lines 36-72), carrying `result_dict`.
`continue` skips the final store; `break` stops the loop after storing. -/
def pdeLoop (render : String → Val → String → Except String String)
    (jloads : String → Option Val)
    (extractJson : Val → String → Except String Val)
    (hostName : String) (dict_field : String) (command_info : Obj)
    (tr : TaskResult) : Obj → List Val → Except String Obj
  | acc, [] => .ok acc
  | acc, sc :: rest => do
      let cmd ← getItem sc "command"
      if valEq cmd (.s tr.name) then do
        let jpath ← asStr (← getItem sc "jpath")
        let _rendered_jpath ← render jpath (.s hostName) hostName
        if !tr.failed then do
          let extracted_value ← rawExtract jloads extractJson tr _rendered_jpath
          let extracted_processed ←
            if truthyOpt (getOpt sc "post_processor") then do
              let tpl ← asStr (← getItem sc "post_processor")
              let r ← render tpl extracted_value hostName
              pure (Val.s r)
            else
              pure (flattenSingleton extracted_value)
          if truthyOpt (dlookup command_info "validator_pattern") then
            if valEq ((dlookup command_info "validator_pattern").getD .null)
                (.s "not None") then
              if !pyTruthy extracted_processed then
                pdeLoop render jloads extractJson hostName dict_field
                  command_info tr acc rest
              else
                pure (dset acc dict_field extracted_processed)
            else
              pdeLoop render jloads extractJson hostName dict_field
                command_info tr (dset acc dict_field extracted_processed) rest
          else
            pdeLoop render jloads extractJson hostName dict_field
              command_info tr (dset acc dict_field extracted_processed) rest
        else
          pdeLoop render jloads extractJson hostName dict_field
            command_info tr acc rest
      else
        pdeLoop render jloads extractJson hostName dict_field
          command_info tr acc rest

/-- `perform_data_extraction` (lines 33-73). -/
def perform_data_extraction (render : String → Val → String → Except String String)
    (jloads : String → Option Val)
    (extractJson : Val → String → Except String Val)
    (hostName : String) (dict_field : String) (command_info : Obj)
    (tr : TaskResult) : Except String Obj := do
  let commands ← getItem (.dict command_info) "commands"
  pdeLoop render jloads extractJson hostName dict_field command_info tr []
    (← pyIter commands)

/-- Normalize a bare-mapping `commands` entry to a one-element list
(lines 96-97 / 103-104).  In the source this assignment mutates the shared
`command_info` in place, and through it `host.data["platform_parsing_info"]`. -/
def normalizeCommands (o : Obj) : Obj :=
  match dlookup o "commands" with
  | some (.dict c) => dset o "commands" (.list [.dict c])
  | _ => o

/-- Process one flat field entry (lines 94-99): normalize `commands`,
extract, and report the (possibly mutated) entry value alongside the
field's extraction result. -/
def esdFlat (render : String → Val → String → Except String String)
    (jloads : String → Option Val)
    (extractJson : Val → String → Except String Val)
    (hostName : String) (trs : List TaskResult)
    (field : String) (o : Obj) : Except String Obj × Obj :=
  let o2 := normalizeCommands o
  match trs with
  | [] => (.error "IndexError multi_result", o2)
  | tr :: _ =>
      (perform_data_extraction render jloads extractJson hostName field o2 tr, o2)

/-- Process the nested entries of one field (lines 100-106): each value
must itself carry `commands`; mutations and the first raised error are
both reported, with earlier nested results concatenated in order. -/
def esdNested (render : String → Val → String → Except String String)
    (jloads : String → Option Val)
    (extractJson : Val → String → Except String Val)
    (hostName : String) (trs : List TaskResult) :
    Obj → Obj → Except String Obj × Obj
  | results, [] => (.ok results, [])
  | results, (df, nci) :: rest =>
      match getItem nci "commands" with
      | .error e => (.error e, (df, nci) :: rest)
      | .ok cv =>
          let nci2 :=
            match cv, nci with
            | .dict c, .dict o => Val.dict (dset o "commands" (.list [.dict c]))
            | _, _ => nci
          let step :=
            match nci2 with
            | .dict o2 => esdFlat render jloads extractJson hostName trs df o2
            | _ => (.error "TypeError subscript commands", [])
          match step.1 with
          | .error e => (.error e, (df, nci2) :: rest)
          | .ok r =>
              let tail := esdNested render jloads extractJson hostName trs
                (dupdate results r) rest
              (tail.1, (df, nci2) :: tail.2)

/-- The `for default_dict_field, command_info in ...items()` loop of
`extract_show_data` (lines 93-106), threading `final_result_dict` and the
in-place mutations of the field-map entries.  On an error, entries not yet
reached are returned unprocessed (their mutations never happened). -/
def esdLoop (render : String → Val → String → Except String String)
    (jloads : String → Option Val)
    (extractJson : Val → String → Except String Val)
    (hostName : String) (trs : List TaskResult) :
    Obj → Obj → Except String Obj × Obj
  | acc, [] => (.ok acc, [])
  | acc, (field, ci) :: rest =>
      match ci with
      | .dict o =>
          if truthyOpt (dlookup o "commands") then
            match esdFlat render jloads extractJson hostName trs field o with
            | (.error e, o2) => (.error e, (field, .dict o2) :: rest)
            | (.ok r, o2) =>
                let tail := esdLoop render jloads extractJson hostName trs
                  (dupdate acc r) rest
                (tail.1, (field, .dict o2) :: tail.2)
          else
            match esdNested render jloads extractJson hostName trs [] o with
            | (.error e, o2) => (.error e, (field, .dict o2) :: rest)
            | (.ok r, o2) =>
                let tail := esdLoop render jloads extractJson hostName trs
                  (dupdate acc r) rest
                (tail.1, (field, .dict o2) :: tail.2)
      | _ => (.error "AttributeError get", (field, ci) :: rest)

/-- `extract_show_data` (lines 76-107): the first component is the
returned `final_result_dict` or the first uncaught exception; the second
is `host.data["platform_parsing_info"]` *after* the call, reflecting the
in-place normalization of `commands` entries. -/
def extract_show_data (render : String → Val → String → Except String String)
    (jloads : String → Option Val)
    (extractJson : Val → String → Except String Val)
    (hostName : String) (hostPlatform : String) (ppi : Obj)
    (multi_result : List TaskResult) (command_getter_type : String) :
    Except String Obj × Obj :=
  let _host_platform :=
    if hostPlatform = "cisco_xe" then "cisco_ios" else hostPlatform
  match dlookup ppi command_getter_type with
  | none => (.error ("KeyError " ++ command_getter_type), ppi)
  | some (.dict entries) =>
      let r := esdLoop render jloads extractJson hostName multi_result [] entries
      (r.1, dset ppi command_getter_type (.dict r.2))
  | some _ => (.error "AttributeError items", ppi)

/-!
Result formatter dispatch (`format_results`, formatter.py lines 360-390).

`lookupSerial` models `Device.objects.get(name=device).serial`; a `.error`
is a raised ORM exception (e.g. `DoesNotExist`), caught by the
per-device `except`.  The local variable `platform` is assigned only when
the device's data has a `platform` key, and *persists across loop
iterations*; it is threaded as `Option Val` state (`none` = not yet bound;
using it then raises `UnboundLocalError`, caught by the same `except`).
-/

/-- The supported-platform list of line 373. -/
def supportedPlatforms : List Val :=
  [.s "cisco_ios", .s "cisco_xe", .s "cisco_nxos"]

/-- `data.update({"failed": True, "failed_reason": <reason>})`, the failure
marking used throughout `format_results`. -/
def markFailed (d : Obj) (reason : String) : Obj :=
  dupdate d [("failed", .b true), ("failed_reason", .s reason)]

/-- The platform dispatch of lines 382-385: the IOS normalizer for
`cisco_ios`/`cisco_xe`, the NX-OS normalizer for `cisco_nxos`, otherwise
no call; only the caller-visible component of the normalizer matters here
since its return value is discarded. -/
def afterSerial (canonical : String → String) (typeMap : List (String × String))
    (platform : Val) (data2 : Obj) : Obj :=
  if valEq platform (.s "cisco_ios") || valEq platform (.s "cisco_xe") then
    (format_ios_results canonical typeMap data2).1
  else if valEq platform (.s "cisco_nxos") then
    (format_nxos_results canonical typeMap data2).1
  else data2

/-- Lines 375-387 applied to the record after the platform-support check:
the `type`-presence check, the serial lookup and its failure markings, and
the normalizer dispatch. -/
def processTail (lookupSerial : String → Except String String)
    (canonical : String → String) (typeMap : List (String × String))
    (platform : Val) (name : String) (data1 : Obj) : Obj :=
  if hasKey data1 "type" then
    match lookupSerial name with
    | .error e => markFailed data1 ("Error formatting device: " ++ e)
    | .ok serial =>
        afterSerial canonical typeMap platform
          (if serial = "" then
            markFailed data1 "Serial not found for device in Nautobot."
          else dset data1 "serial" (.s serial))
  else markFailed data1 "Cannot connect to device."

/-- Lines 373-387 with the `platform` variable bound: mark unsupported
platforms failed, then run `processTail`. -/
def processWithPlatform (lookupSerial : String → Except String String)
    (canonical : String → String) (typeMap : List (String × String))
    (platform : Val) (name : String) (data : Obj) : Obj :=
  processTail lookupSerial canonical typeMap platform name
    (if supportedPlatforms.any (valEq platform) then data
     else markFailed data ("Unsupported platform " ++ pyStr platform))

/-- One iteration of the `format_results` device loop (lines 369-389):
returns the caller-visible device record and the `platform` variable state
after the iteration.  A first device without a `platform` key reads the
unbound local (`UnboundLocalError`, caught as a generic formatting
error). -/
def processDevice (lookupSerial : String → Except String String)
    (canonical : String → String) (typeMap : List (String × String))
    (st : Option Val) (name : String) (data : Obj) : Obj × Option Val :=
  match (if hasKey data "platform"
    then some ((dlookup data "platform").getD .null) else st) with
  | none =>
      (markFailed data
        "Error formatting device: local variable platform referenced before assignment",
       none)
  | some platform =>
      (processWithPlatform lookupSerial canonical typeMap platform name data,
       some platform)

/-- The `format_results` loop over `compiled_results.items()`, threading
the loop-carried `platform` variable. -/
def formatResultsGo (lookupSerial : String → Except String String)
    (canonical : String → String) (typeMap : List (String × String)) :
    Option Val → List (String × Obj) → List (String × Obj)
  | _, [] => []
  | st, (name, data) :: rest =>
      let r := processDevice lookupSerial canonical typeMap st name data
      (name, r.1) :: formatResultsGo lookupSerial canonical typeMap r.2 rest

/-- `format_results` (lines 360-390): each device's record is mutated in
place; the (caller-visible) mapping of records is returned. -/
def format_results (lookupSerial : String → Except String String)
    (canonical : String → String) (typeMap : List (String × String))
    (compiled_results : List (String × Obj)) : List (String × Obj) :=
  formatResultsGo lookupSerial canonical typeMap none compiled_results

/-!
Concrete instantiations of the external collaborators, used to run the
embedding on closed inputs (counterexamples and witnesses).
-/

/-- Identity instantiation of `canonical_interface_name`. -/
def canonId (s : String) : String := s

/-- A one-entry instantiation of `canonical_interface_name`. -/
def canonTest (s : String) : String :=
  if s = "Gi1" then "GigabitEthernet1" else s

/-- An empty interface-type table. -/
def tmTest : List (String × String) := []

/-- A serial lookup that finds an empty serial for every device. -/
def serialEmpty (_ : String) : Except String String := .ok ""

/-- A serial lookup that finds the serial `"SER123"` for every device. -/
def serialSome (_ : String) : Except String String := .ok "SER123"

/-- A renderer that returns every template text unchanged. -/
def renderTest (tpl : String) (_ : Val) (_ : String) : Except String String :=
  .ok tpl

/-- A renderer that raises on the template `"pp"` (a strict-undefined
template error) and otherwise returns the text unchanged. -/
def renderSel (tpl : String) (_ : Val) (_ : String) : Except String String :=
  if tpl = "pp" then .error "UndefinedError" else .ok tpl

/-- A `json.loads` that always fails to decode. -/
def jloadsNone (_ : String) : Option Val := none

/-- A path-query evaluator returning a fixed value. -/
def extractConst (v : Val) (_ : Val) (_ : String) : Except String Val := .ok v

/-- Does a record carry `failed=True` together with a string
`failed_reason`? -/
def isFailRecord (d : Obj) : Bool :=
  (match dlookup d "failed" with
   | some (.b true) => true
   | _ => false) &&
  (match dlookup d "failed_reason" with
   | some (.s _) => true
   | _ => false)

/-!
Dictionary lemmas.
-/

theorem ebind_ok {α β : Type} (a : α) (f : α → Except String β) :
    (Except.ok a >>= f : Except String β) = f a := rfl

theorem ebind_err {α β : Type} (e : String) (f : α → Except String β) :
    (Except.error e >>= f : Except String β) = .error e := rfl

theorem dlookup_dset_self (d : Obj) (k : String) (v : Val) :
    dlookup (dset d k v) k = some v := by
  induction d with
  | nil => simp [dset, dlookup]
  | cons kv rest ih =>
      obtain ⟨a, w⟩ := kv
      by_cases h : a = k
      · simp [dset, h, dlookup]
      · simp [dset, h, dlookup, ih]

theorem dlookup_dset_ne (d : Obj) {k k2 : String} (v : Val) (h : k2 ≠ k) :
    dlookup (dset d k v) k2 = dlookup d k2 := by
  induction d with
  | nil => simp [dset, dlookup, Ne.symm h]
  | cons kv rest ih =>
      obtain ⟨a, w⟩ := kv
      by_cases ha : a = k
      · subst ha
        simp [dset, dlookup, Ne.symm h]
      · simp only [dset, if_neg ha, dlookup]
        by_cases hb : a = k2 <;> simp [hb, ih]

theorem hasKey_dset_ne (d : Obj) {k k2 : String} (v : Val) (h : k2 ≠ k) :
    hasKey (dset d k v) k2 = hasKey d k2 := by
  simp [hasKey, dlookup_dset_ne d v h]

theorem ddel_cons_pos (a : String) (w : Val) (rest : Obj) :
    ddel ((a, w) :: rest) a = some rest := by
  simp [ddel]

theorem ddel_cons_neg {a key : String} (w : Val) (rest : Obj) (h : a ≠ key) :
    ddel ((a, w) :: rest) key = (ddel rest key).map ((a, w) :: ·) := by
  simp [ddel, h]

theorem dlookup_ddel_ne {d d2 : Obj} {k k2 : String}
    (h : ddel d k = some d2) (hne : k2 ≠ k) :
    dlookup d2 k2 = dlookup d k2 := by
  induction d generalizing d2 with
  | nil => simp [ddel] at h
  | cons kv rest ih =>
      obtain ⟨a, w⟩ := kv
      by_cases ha : a = k
      · subst ha
        rw [ddel_cons_pos] at h
        injection h with h
        subst h
        simp [dlookup, Ne.symm hne]
      · rw [ddel_cons_neg w rest ha] at h
        cases hd : ddel rest k with
        | none => rw [hd] at h; simp at h
        | some r =>
            rw [hd] at h
            simp at h
            subst h
            by_cases hb : a = k2 <;> simp [dlookup, hb, ih hd]

theorem dlookup_delAll_not_mem (ks : List String) (d : Obj) (k : String)
    (h : k ∉ ks) :
    dlookup (delAll d ks).1 k = dlookup d k := by
  induction ks generalizing d with
  | nil => rfl
  | cons k1 rest ih =>
      have hne : k ≠ k1 := fun he => h (he ▸ List.mem_cons_self k1 rest)
      have hrest : k ∉ rest := fun hm => h (List.mem_cons_of_mem k1 hm)
      cases hd : ddel d k1 with
      | none => simp [delAll, hd]
      | some d2 => simp [delAll, hd, ih d2 hrest, dlookup_ddel_ne hd hne]

theorem dlookup_dupdate_not_mem (r d : Obj) (k : String)
    (h : ∀ p ∈ r, p.1 ≠ k) :
    dlookup (dupdate d r) k = dlookup d k := by
  induction r generalizing d with
  | nil => rfl
  | cons p rest ih =>
      have h1 : p.1 ≠ k := h p (List.mem_cons_self p rest)
      have h2 : ∀ q ∈ rest, q.1 ≠ k := fun q hq => h q (List.mem_cons_of_mem p hq)
      simp only [dupdate, List.foldl_cons]
      rw [show List.foldl (fun acc kv => dset acc kv.1 kv.2) (dset d p.1 p.2) rest
            = dupdate (dset d p.1 p.2) rest from rfl,
          ih _ h2, dlookup_dset_ne _ _ (Ne.symm h1)]

theorem markFailed_eq (d : Obj) (m : String) :
    markFailed d m = dset (dset d "failed" (.b true)) "failed_reason" (.s m) := rfl

theorem dlookup_markFailed_failed (d : Obj) (m : String) :
    dlookup (markFailed d m) "failed" = some (.b true) := by
  rw [markFailed_eq, dlookup_dset_ne _ _ (by decide), dlookup_dset_self]

theorem dlookup_markFailed_reason (d : Obj) (m : String) :
    dlookup (markFailed d m) "failed_reason" = some (.s m) := by
  rw [markFailed_eq, dlookup_dset_self]

theorem dlookup_markFailed_ne (d : Obj) (m : String) {k : String}
    (h1 : k ≠ "failed") (h2 : k ≠ "failed_reason") :
    dlookup (markFailed d m) k = dlookup d k := by
  rw [markFailed_eq, dlookup_dset_ne _ _ h2, dlookup_dset_ne _ _ h1]

/-- Lookups through the tail of a successful normalizer run (assignment of
`interfaces` and `serial`, then the cleanup deletions): every other key is
untouched, whether or not the deletions all succeeded. -/
theorem dlookup_format_tail (device : Obj) (l : List Val) (serial : Val)
    (ks : List String) {k : String} (hks : k ∉ ks) (h1 : k ≠ "serial")
    (h2 : k ≠ "interfaces") :
    dlookup (delAll (dset (dset device "interfaces" (.list l)) "serial" serial) ks).1 k
      = dlookup device k := by
  rw [dlookup_delAll_not_mem ks _ k hks, dlookup_dset_ne _ _ h1, dlookup_dset_ne _ _ h2]

/-- The caller-visible result of `format_ios_results` agrees with its
input on every key other than `interfaces`, `serial` and the deleted
per-field keys — in particular on `failed` and `failed_reason`, which a
failure therefore never sets for the caller. -/
theorem format_ios_results_fst_lookup (canonical : String → String)
    (typeMap : List (String × String)) (device : Obj) {k : String}
    (hks : k ∉ iosDelKeys) (h1 : k ≠ "serial") (h2 : k ≠ "interfaces") :
    dlookup (format_ios_results canonical typeMap device).1 k = dlookup device k := by
  unfold format_ios_results
  cases hc : iosCompute canonical typeMap device with
  | error e => rfl
  | ok l =>
      rcases hp : delAll (dset (dset device "interfaces" (.list l)) "serial"
        ((dlookup device "serial").getD .null)) iosDelKeys with ⟨d3, br⟩
      have := dlookup_format_tail device l ((dlookup device "serial").getD .null)
        iosDelKeys hks h1 h2
      rw [hp] at this
      cases br <;> simpa [hp] using this

/-- The NX-OS analogue of `format_ios_results_fst_lookup`. -/
theorem format_nxos_results_fst_lookup (canonical : String → String)
    (typeMap : List (String × String)) (device : Obj) {k : String}
    (hks : k ∉ nxosDelKeys) (h1 : k ≠ "serial") (h2 : k ≠ "interfaces") :
    dlookup (format_nxos_results canonical typeMap device).1 k = dlookup device k := by
  unfold format_nxos_results
  cases hc : nxosCompute canonical typeMap device with
  | error e => rfl
  | ok l =>
      rcases hp : delAll (dset (dset device "interfaces" (.list l)) "serial"
        ((dlookup device "serial").getD .null)) nxosDelKeys with ⟨d3, br⟩
      have := dlookup_format_tail device l ((dlookup device "serial").getD .null)
        nxosDelKeys hks h1 h2
      rw [hp] at this
      cases br <;> simpa [hp] using this

/-- Lookup of `interfaces` through the normalizer tail: the assigned list
survives the cleanup deletions whether or not they all succeed. -/
theorem dlookup_format_tail2 (device : Obj) (l : List Val) (serial : Val)
    (ks : List String) (hks : "interfaces" ∉ ks) :
    dlookup (delAll (dset (dset device "interfaces" (.list l)) "serial" serial) ks).1
      "interfaces" = some (.list l) := by
  rw [dlookup_delAll_not_mem ks _ _ hks, dlookup_dset_ne _ _ (by decide),
    dlookup_dset_self]

/-!
Claim C1.
-/

/-- An IOS device aggregate whose steps 1-6 succeed (one well-formed mtu
item) but whose cleanup raises `KeyError` at `del device["type"]`. -/
def c1devB : Obj :=
  [("mtu", .list [.dict [("interface", .s "Gi1"), ("mtu", .i 1500)]])]

/-- An IOS device aggregate whose steps 1-6 raise (the mtu item is not a
mapping, so `item["interface"]` raises `TypeError`). -/
def c1devA : Obj := [("mtu", .list [.i 5])]

/-- C1 counterexample: on `c1devB` the cleanup `del` raises `KeyError`,
yet the record the caller passed in is *not* converted into a failure
record (no `failed` key) and it *does* carry the freshly built, populated
`interfaces` list — the failure record only exists in the discarded return
value.  This refutes the claim that the device record is converted in
place and carries no partial interfaces list. -/
theorem c1_counterexample :
    hasKey (format_ios_results canonTest tmTest c1devB).1 "failed" = false ∧
    dlookup (format_ios_results canonTest tmTest c1devB).1 "interfaces"
      = some (.list [.dict [("GigabitEthernet1", .dict
          [("mtu", .i 1500), ("lag", .s ""), ("untagged_vlan", .dict []),
           ("tagged_vlans", .list []), ("vrf", .dict []),
           ("802.1Q_mode", .s "")])]]) ∧
    isFailRecord (format_ios_results canonTest tmTest c1devB).2 = true :=
  ⟨rfl, rfl, rfl⟩

/-- C1 (amended): when any exception occurs during steps 1-6 of
`format_ios_results` / `format_nxos_results`, or a `KeyError` occurs
during the cleanup deletions, the *returned* value is
`{failed: true, failed_reason: <diagnostic>}` — but the record the caller
passed in is not converted: a steps-1-6 exception leaves it exactly as
passed, and a cleanup `KeyError` leaves its `failed` key untouched while
the record still carries the assigned `interfaces` list. -/
theorem c1_failure_record_returned_not_applied
    (canonical : String → String) (typeMap : List (String × String))
    (device : Obj) :
    ((∃ e, iosCompute canonical typeMap device = .error e) →
        (format_ios_results canonical typeMap device).1 = device ∧
        isFailRecord (format_ios_results canonical typeMap device).2 = true) ∧
    (∀ l, iosCompute canonical typeMap device = .ok l →
        (delAll (dset (dset device "interfaces" (.list l)) "serial"
            ((dlookup device "serial").getD .null)) iosDelKeys).2 = false →
        dlookup (format_ios_results canonical typeMap device).1 "interfaces"
          = some (.list l) ∧
        dlookup (format_ios_results canonical typeMap device).1 "failed"
          = dlookup device "failed" ∧
        isFailRecord (format_ios_results canonical typeMap device).2 = true) ∧
    ((∃ e, nxosCompute canonical typeMap device = .error e) →
        (format_nxos_results canonical typeMap device).1 = device ∧
        isFailRecord (format_nxos_results canonical typeMap device).2 = true) ∧
    (∀ l, nxosCompute canonical typeMap device = .ok l →
        (delAll (dset (dset device "interfaces" (.list l)) "serial"
            ((dlookup device "serial").getD .null)) nxosDelKeys).2 = false →
        dlookup (format_nxos_results canonical typeMap device).1 "interfaces"
          = some (.list l) ∧
        dlookup (format_nxos_results canonical typeMap device).1 "failed"
          = dlookup device "failed" ∧
        isFailRecord (format_nxos_results canonical typeMap device).2 = true) := by
  refine ⟨?_, ?_, ?_, ?_⟩
  · rintro ⟨e, he⟩
    refine ⟨?_, ?_⟩ <;> simp [format_ios_results, he, isFailRecord, dlookup]
  · intro l h1 h2
    rcases hp : delAll (dset (dset device "interfaces" (.list l)) "serial"
        ((dlookup device "serial").getD .null)) iosDelKeys with ⟨d3, br⟩
    rw [hp] at h2
    simp only at h2
    subst h2
    have hfst : (format_ios_results canonical typeMap device).1 = d3 := by
      simp [format_ios_results, h1, hp]
    have hsnd : (format_ios_results canonical typeMap device).2
        = [("failed", .b true),
           ("failed_reason",
            .s ("Formatting error 2 for device " ++ pyRepr (.dict d3)))] := by
      simp [format_ios_results, h1, hp]
    refine ⟨?_, ?_, ?_⟩
    · rw [hfst]
      have := dlookup_format_tail2 device l ((dlookup device "serial").getD .null)
        iosDelKeys (by decide)
      rw [hp] at this
      exact this
    · rw [hfst]
      have := dlookup_format_tail device l ((dlookup device "serial").getD .null)
        iosDelKeys (k := "failed") (by decide) (by decide) (by decide)
      rw [hp] at this
      exact this
    · rw [hsnd]
      simp [isFailRecord, dlookup]
  · rintro ⟨e, he⟩
    refine ⟨?_, ?_⟩ <;> simp [format_nxos_results, he, isFailRecord, dlookup]
  · intro l h1 h2
    rcases hp : delAll (dset (dset device "interfaces" (.list l)) "serial"
        ((dlookup device "serial").getD .null)) nxosDelKeys with ⟨d3, br⟩
    rw [hp] at h2
    simp only at h2
    subst h2
    have hfst : (format_nxos_results canonical typeMap device).1 = d3 := by
      simp [format_nxos_results, h1, hp]
    have hsnd : (format_nxos_results canonical typeMap device).2
        = [("failed", .b true),
           ("failed_reason",
            .s ("Formatting error for device " ++ pyRepr (.dict d3)))] := by
      simp [format_nxos_results, h1, hp]
    refine ⟨?_, ?_, ?_⟩
    · rw [hfst]
      have := dlookup_format_tail2 device l ((dlookup device "serial").getD .null)
        nxosDelKeys (by decide)
      rw [hp] at this
      exact this
    · rw [hfst]
      have := dlookup_format_tail device l ((dlookup device "serial").getD .null)
        nxosDelKeys (k := "failed") (by decide) (by decide) (by decide)
      rw [hp] at this
      exact this
    · rw [hsnd]
      simp [isFailRecord, dlookup]

/-- C1 witness: the amended theorem applied at `c1devA` (a steps-1-6
exception) and at `c1devB` (a cleanup `KeyError`), with every hypothesis
discharged on the concrete inputs. -/
theorem c1_witness :
    ((format_ios_results canonTest tmTest c1devA).1 = c1devA ∧
     isFailRecord (format_ios_results canonTest tmTest c1devA).2 = true) ∧
    (dlookup (format_ios_results canonTest tmTest c1devB).1 "interfaces"
       = some (.list [.dict [("GigabitEthernet1", .dict
           [("mtu", .i 1500), ("lag", .s ""), ("untagged_vlan", .dict []),
            ("tagged_vlans", .list []), ("vrf", .dict []),
            ("802.1Q_mode", .s "")])]]) ∧
     dlookup (format_ios_results canonTest tmTest c1devB).1 "failed"
       = dlookup c1devB "failed" ∧
     isFailRecord (format_ios_results canonTest tmTest c1devB).2 = true) :=
  ⟨(c1_failure_record_returned_not_applied canonTest tmTest c1devA).1
     ⟨"TypeError subscript interface", rfl⟩,
   (c1_failure_record_returned_not_applied canonTest tmTest c1devB).2.1
     [.dict [("GigabitEthernet1", .dict
        [("mtu", .i 1500), ("lag", .s ""), ("untagged_vlan", .dict []),
         ("tagged_vlans", .list []), ("vrf", .dict []),
         ("802.1Q_mode", .s "")])]] rfl rfl⟩

/-!
Claim C2.
-/

/-- A device whose data declares a supported platform and carries `type`
data, for a run whose serial lookup comes back empty (spec Scenario C). -/
def c2dev : Obj :=
  [("platform", .s "cisco_ios"),
   ("type", .list [.dict [("interface", .s "Gi1"), ("type", .s "foo")]])]

/-- C2 counterexample: with an empty serial lookup, `format_results` marks
the device failed with the Scenario C reason but still invokes the IOS
normalizer, so the failed record also carries a populated `interfaces`
list — failure does not short-circuit normalization here. -/
theorem c2_counterexample :
    dlookup ((format_results serialEmpty canonId tmTest [("sw1", c2dev)]).headI.2)
        "failed" = some (.b true) ∧
    dlookup ((format_results serialEmpty canonId tmTest [("sw1", c2dev)]).headI.2)
        "failed_reason" = some (.s "Serial not found for device in Nautobot.") ∧
    ∃ rec, dlookup ((format_results serialEmpty canonId tmTest [("sw1", c2dev)]).headI.2)
        "interfaces" = some (.list [rec]) :=
  ⟨rfl, rfl, _, rfl⟩

/-- A key reported absent by `hasKey` looks up to `none`. -/
theorem hasKey_false_lookup {d : Obj} {k : String} (h : hasKey d k = false) :
    dlookup d k = none := by
  cases hl : dlookup d k with
  | none => rfl
  | some v => rw [hasKey, hl] at h; simp at h

/-- An unsupported platform matches none of the dispatch guards, so
`afterSerial` performs no normalizer call. -/
theorem afterSerial_unsupported (canonical : String → String)
    (typeMap : List (String × String)) (platform : Val) (d : Obj)
    (h : supportedPlatforms.any (valEq platform) = false) :
    afterSerial canonical typeMap platform d = d := by
  have h3 : valEq platform (.s "cisco_ios") = false ∧
      valEq platform (.s "cisco_xe") = false ∧
      valEq platform (.s "cisco_nxos") = false := by
    simpa [supportedPlatforms] using h
  simp [afterSerial, h3.1, h3.2.1, h3.2.2]

/-- The dispatch preserves the failure-marker keys of the record it is
given (a normalizer never sets them on the caller-visible record). -/
theorem afterSerial_failedkeys (canonical : String → String)
    (typeMap : List (String × String)) (platform : Val) (d : Obj) :
    dlookup (afterSerial canonical typeMap platform d) "failed"
      = dlookup d "failed" ∧
    dlookup (afterSerial canonical typeMap platform d) "failed_reason"
      = dlookup d "failed_reason" := by
  unfold afterSerial
  split
  · exact ⟨format_ios_results_fst_lookup _ _ _ (by decide) (by decide) (by decide),
      format_ios_results_fst_lookup _ _ _ (by decide) (by decide) (by decide)⟩
  · split
    · exact ⟨format_nxos_results_fst_lookup _ _ _ (by decide) (by decide) (by decide),
        format_nxos_results_fst_lookup _ _ _ (by decide) (by decide) (by decide)⟩
    · exact ⟨rfl, rfl⟩

/-- The failure-marker and short-circuit properties of `processTail`. -/
theorem processTail_props (lookupSerial : String → Except String String)
    (canonical : String → String) (typeMap : List (String × String))
    (platform : Val) (name : String) (data1 : Obj)
    (hpair : hasKey data1 "failed" = hasKey data1 "failed_reason")
    (htrue : hasKey data1 "failed" = true →
      dlookup data1 "failed" = some (.b true))
    (hI : dlookup data1 "interfaces" = none) :
    (hasKey (processTail lookupSerial canonical typeMap platform name data1) "failed"
      = hasKey (processTail lookupSerial canonical typeMap platform name data1)
          "failed_reason") ∧
    (hasKey (processTail lookupSerial canonical typeMap platform name data1) "failed"
        = true →
      dlookup (processTail lookupSerial canonical typeMap platform name data1)
        "failed" = some (.b true)) ∧
    (hasKey data1 "type" = false →
      hasKey (processTail lookupSerial canonical typeMap platform name data1)
        "interfaces" = false) ∧
    (supportedPlatforms.any (valEq platform) = false →
      hasKey (processTail lookupSerial canonical typeMap platform name data1)
        "interfaces" = false) := by
  by_cases ht : hasKey data1 "type"
  · cases hls : lookupSerial name with
    | error e =>
        have hred : processTail lookupSerial canonical typeMap platform name data1
            = markFailed data1 ("Error formatting device: " ++ e) := by
          unfold processTail; rw [if_pos ht, hls]
        rw [hred]
        refine ⟨?_, ?_, ?_, ?_⟩
        · simp [hasKey, dlookup_markFailed_failed, dlookup_markFailed_reason]
        · intro _; exact dlookup_markFailed_failed _ _
        · intro h; rw [h] at ht; exact absurd ht (by decide)
        · intro _
          simp [hasKey, dlookup_markFailed_ne _ _
            (show "interfaces" ≠ "failed" by decide)
            (show "interfaces" ≠ "failed_reason" by decide), hI]
    | ok serial =>
        have hred : processTail lookupSerial canonical typeMap platform name data1
            = afterSerial canonical typeMap platform
              (if serial = "" then
                markFailed data1 "Serial not found for device in Nautobot."
              else dset data1 "serial" (.s serial)) := by
          unfold processTail; rw [if_pos ht, hls]
        rw [hred]
        have h2 : (hasKey (if serial = "" then
              markFailed data1 "Serial not found for device in Nautobot."
            else dset data1 "serial" (.s serial)) "failed"
            = hasKey (if serial = "" then
              markFailed data1 "Serial not found for device in Nautobot."
            else dset data1 "serial" (.s serial)) "failed_reason") ∧
            (hasKey (if serial = "" then
              markFailed data1 "Serial not found for device in Nautobot."
            else dset data1 "serial" (.s serial)) "failed" = true →
            dlookup (if serial = "" then
              markFailed data1 "Serial not found for device in Nautobot."
            else dset data1 "serial" (.s serial)) "failed" = some (.b true)) ∧
            dlookup (if serial = "" then
              markFailed data1 "Serial not found for device in Nautobot."
            else dset data1 "serial" (.s serial)) "interfaces" = none := by
          split
          · refine ⟨?_, ?_, ?_⟩
            · simp [hasKey, dlookup_markFailed_failed, dlookup_markFailed_reason]
            · intro _; exact dlookup_markFailed_failed _ _
            · rw [dlookup_markFailed_ne _ _ (by decide) (by decide)]; exact hI
          · refine ⟨?_, ?_, ?_⟩
            · simp [hasKey, dlookup_dset_ne _ _ (show "failed" ≠ "serial" by decide),
                dlookup_dset_ne _ _ (show "failed_reason" ≠ "serial" by decide)]
              simpa [hasKey] using hpair
            · intro h
              rw [dlookup_dset_ne _ _ (show "failed" ≠ "serial" by decide)]
              rw [hasKey, dlookup_dset_ne _ _ (show "failed" ≠ "serial" by decide)]
                at h
              exact htrue h
            · rw [dlookup_dset_ne _ _ (by decide)]; exact hI
        obtain ⟨h2a, h2b, h2c⟩ := h2
        have ha := afterSerial_failedkeys canonical typeMap platform
          (if serial = "" then
            markFailed data1 "Serial not found for device in Nautobot."
          else dset data1 "serial" (.s serial))
        refine ⟨?_, ?_, ?_, ?_⟩
        · rw [hasKey, hasKey, ha.1, ha.2]
          simpa [hasKey] using h2a
        · intro h
          rw [hasKey, ha.1] at h
          rw [ha.1]
          exact h2b (by rw [hasKey]; exact h)
        · intro h; rw [h] at ht; exact absurd ht (by decide)
        · intro hup
          rw [afterSerial_unsupported canonical typeMap platform _ hup]
          simp [hasKey, h2c]
  · have hred : processTail lookupSerial canonical typeMap platform name data1
        = markFailed data1 "Cannot connect to device." := by
      unfold processTail; rw [if_neg ht]
    rw [hred]
    refine ⟨?_, ?_, ?_, ?_⟩
    · simp [hasKey, dlookup_markFailed_failed, dlookup_markFailed_reason]
    · intro _; exact dlookup_markFailed_failed _ _
    · intro _
      simp [hasKey, dlookup_markFailed_ne _ _
        (show "interfaces" ≠ "failed" by decide)
        (show "interfaces" ≠ "failed_reason" by decide), hI]
    · intro _
      simp [hasKey, dlookup_markFailed_ne _ _
        (show "interfaces" ≠ "failed" by decide)
        (show "interfaces" ≠ "failed_reason" by decide), hI]

/-- C2 (amended): for a device record that does not already carry
`failed`, `failed_reason` or `interfaces` keys, after one `format_results`
iteration the `failed` and `failed_reason` keys are present exactly
together, a present `failed` key holds `true`, and normalization is
short-circuited (no `interfaces` key is produced) when the device has no
`type` data or its declared platform is unsupported — but *not* for the
empty-serial failure, as the counterexample shows. -/
theorem c2_failed_reason_pairing (lookupSerial : String → Except String String)
    (canonical : String → String) (typeMap : List (String × String))
    (st : Option Val) (name : String) (data : Obj)
    (hf : hasKey data "failed" = false) (hr : hasKey data "failed_reason" = false)
    (hi : hasKey data "interfaces" = false) :
    (hasKey (processDevice lookupSerial canonical typeMap st name data).1 "failed"
      = hasKey (processDevice lookupSerial canonical typeMap st name data).1
          "failed_reason") ∧
    (hasKey (processDevice lookupSerial canonical typeMap st name data).1 "failed"
        = true →
      dlookup (processDevice lookupSerial canonical typeMap st name data).1 "failed"
        = some (.b true)) ∧
    (hasKey data "type" = false →
      hasKey (processDevice lookupSerial canonical typeMap st name data).1
        "interfaces" = false) ∧
    (∀ p, dlookup data "platform" = some p →
      supportedPlatforms.any (valEq p) = false →
      hasKey (processDevice lookupSerial canonical typeMap st name data).1
        "interfaces" = false) := by
  have hInone : dlookup data "interfaces" = none := hasKey_false_lookup hi
  rcases hst : (if hasKey data "platform"
      then some ((dlookup data "platform").getD .null) else st) with _ | platform
  · have hred : (processDevice lookupSerial canonical typeMap st name data).1
        = markFailed data
          "Error formatting device: local variable platform referenced before assignment" := by
      unfold processDevice; rw [hst]
    rw [hred]
    refine ⟨?_, ?_, ?_, ?_⟩
    · simp [hasKey, dlookup_markFailed_failed, dlookup_markFailed_reason]
    · intro _; exact dlookup_markFailed_failed _ _
    · intro _
      simp [hasKey, dlookup_markFailed_ne _ _
        (show "interfaces" ≠ "failed" by decide)
        (show "interfaces" ≠ "failed_reason" by decide), hInone]
    · intro _
      simp [hasKey, dlookup_markFailed_ne _ _
        (show "interfaces" ≠ "failed" by decide)
        (show "interfaces" ≠ "failed_reason" by decide), hInone]
  · have hred : (processDevice lookupSerial canonical typeMap st name data).1
        = processTail lookupSerial canonical typeMap platform name
          (if supportedPlatforms.any (valEq platform) then data
           else markFailed data ("Unsupported platform " ++ pyStr platform)) := by
      unfold processDevice processWithPlatform; rw [hst]
    rw [hred]
    have hd1 : (hasKey (if supportedPlatforms.any (valEq platform) then data
          else markFailed data ("Unsupported platform " ++ pyStr platform)) "failed"
        = hasKey (if supportedPlatforms.any (valEq platform) then data
          else markFailed data ("Unsupported platform " ++ pyStr platform))
            "failed_reason") ∧
        (hasKey (if supportedPlatforms.any (valEq platform) then data
          else markFailed data ("Unsupported platform " ++ pyStr platform)) "failed"
            = true →
          dlookup (if supportedPlatforms.any (valEq platform) then data
            else markFailed data ("Unsupported platform " ++ pyStr platform))
              "failed" = some (.b true)) ∧
        dlookup (if supportedPlatforms.any (valEq platform) then data
          else markFailed data ("Unsupported platform " ++ pyStr platform))
            "interfaces" = none ∧
        hasKey (if supportedPlatforms.any (valEq platform) then data
          else markFailed data ("Unsupported platform " ++ pyStr platform)) "type"
          = hasKey data "type" := by
      split
      · refine ⟨?_, ?_, hInone, rfl⟩
        · rw [hf, hr]
        · intro h; rw [h] at hf; exact absurd hf (by decide)
      · refine ⟨?_, ?_, ?_, ?_⟩
        · simp [hasKey, dlookup_markFailed_failed, dlookup_markFailed_reason]
        · intro _; exact dlookup_markFailed_failed _ _
        · rw [dlookup_markFailed_ne _ _ (by decide) (by decide)]; exact hInone
        · simp [hasKey, dlookup_markFailed_ne _ _
            (show "type" ≠ "failed" by decide)
            (show "type" ≠ "failed_reason" by decide)]
    obtain ⟨hd1a, hd1b, hd1c, hd1d⟩ := hd1
    have hp := processTail_props lookupSerial canonical typeMap platform name
      (if supportedPlatforms.any (valEq platform) then data
       else markFailed data ("Unsupported platform " ++ pyStr platform))
      hd1a hd1b hd1c
    refine ⟨hp.1, hp.2.1, ?_, ?_⟩
    · intro h
      exact hp.2.2.1 (by rw [hd1d]; exact h)
    · intro p hplat hup
      have hkey : hasKey data "platform" = true := by simp [hasKey, hplat]
      rw [if_pos hkey, hplat] at hst
      simp only [Option.getD_some, Option.some.injEq] at hst
      rw [hst] at hup
      exact hp.2.2.2 hup

/-- C2 witness: the amended theorem applied to a concrete device with no
`type` data and an unsupported platform, discharging every hypothesis. -/
theorem c2_witness :
    hasKey (processDevice serialSome canonId tmTest none "sw9"
        [("platform", .s "arista_eos")]).1 "failed"
      = hasKey (processDevice serialSome canonId tmTest none "sw9"
        [("platform", .s "arista_eos")]).1 "failed_reason" ∧
    hasKey (processDevice serialSome canonId tmTest none "sw9"
        [("platform", .s "arista_eos")]).1 "interfaces" = false :=
  ⟨(c2_failed_reason_pairing serialSome canonId tmTest none "sw9"
      [("platform", .s "arista_eos")] rfl rfl rfl).1,
   (c2_failed_reason_pairing serialSome canonId tmTest none "sw9"
      [("platform", .s "arista_eos")] rfl rfl rfl).2.2.2
     (.s "arista_eos") rfl rfl⟩

/-!
Claim C8.
-/

/-- C8 counterexample: a device declaring `platform="arista_eos"` but
carrying no `type` data ends with `failed_reason` "Cannot connect to
device." — the later missing-`type` marking overwrites the unsupported
platform reason, so the reason is not "Unsupported platform arista_eos". -/
theorem c8_counterexample :
    format_results serialSome canonId tmTest
        [("sw2", [("platform", .s "arista_eos")])]
      = [("sw2", [("platform", .s "arista_eos"), ("failed", .b true),
                  ("failed_reason", .s "Cannot connect to device.")])] ∧
    "Cannot connect to device." ≠ "Unsupported platform arista_eos" :=
  ⟨rfl, by decide⟩

/-- C8 (amended): a device declaring `platform="arista_eos"` is always
marked `failed=true` and never gains an `interfaces` key, but its
`failed_reason` is exactly "Unsupported platform arista_eos" only when the
device has `type` data and the serial lookup succeeds non-empty;
otherwise a later marking overwrites it ("Cannot connect to device."
without `type` data, "Serial not found for device in Nautobot." on an
empty serial). -/
theorem c8_unsupported_platform (lookupSerial : String → Except String String)
    (canonical : String → String) (typeMap : List (String × String))
    (name : String) (data : Obj) (s : String)
    (hplat : dlookup data "platform" = some (.s "arista_eos"))
    (hi : hasKey data "interfaces" = false)
    (hser : lookupSerial name = .ok s) :
    ∃ out, format_results lookupSerial canonical typeMap [(name, data)]
        = [(name, out)] ∧
      dlookup out "failed" = some (.b true) ∧
      hasKey out "interfaces" = false ∧
      (hasKey data "type" = false →
        dlookup out "failed_reason" = some (.s "Cannot connect to device.")) ∧
      (hasKey data "type" = true → s = "" →
        dlookup out "failed_reason"
          = some (.s "Serial not found for device in Nautobot.")) ∧
      (hasKey data "type" = true → s ≠ "" →
        dlookup out "failed_reason"
          = some (.s "Unsupported platform arista_eos")) := by
  have hInone : dlookup data "interfaces" = none := hasKey_false_lookup hi
  have hkey : hasKey data "platform" = true := by simp [hasKey, hplat]
  have hunsup : supportedPlatforms.any (valEq (.s "arista_eos")) = false := by decide
  have hred : (processDevice lookupSerial canonical typeMap none name data).1
      = processTail lookupSerial canonical typeMap (.s "arista_eos") name
        (markFailed data "Unsupported platform arista_eos") := by
    unfold processDevice processWithPlatform
    rw [if_pos hkey, hplat]
    simp only [Option.getD_some, hunsup, Bool.false_eq_true, if_false]
    rfl
  have htype : hasKey (markFailed data "Unsupported platform arista_eos") "type"
      = hasKey data "type" := by
    simp [hasKey, dlookup_markFailed_ne _ _ (show "type" ≠ "failed" by decide)
      (show "type" ≠ "failed_reason" by decide)]
  have hmI : dlookup (markFailed data "Unsupported platform arista_eos")
      "interfaces" = none := by
    rw [dlookup_markFailed_ne _ _ (by decide) (by decide)]; exact hInone
  refine ⟨(processDevice lookupSerial canonical typeMap none name data).1, rfl, ?_⟩
  rw [hred]
  by_cases ht : hasKey data "type" = true
  · have hred2 : processTail lookupSerial canonical typeMap (.s "arista_eos") name
        (markFailed data "Unsupported platform arista_eos")
        = afterSerial canonical typeMap (.s "arista_eos")
          (if s = "" then
            markFailed (markFailed data "Unsupported platform arista_eos")
              "Serial not found for device in Nautobot."
          else dset (markFailed data "Unsupported platform arista_eos")
            "serial" (.s s)) := by
      unfold processTail
      rw [if_pos (htype.trans ht), hser]
    rw [hred2, afterSerial_unsupported _ _ _ _ hunsup]
    by_cases hs : s = ""
    · rw [if_pos hs]
      refine ⟨dlookup_markFailed_failed _ _, ?_, ?_, ?_, ?_⟩
      · simp [hasKey, dlookup_markFailed_ne _ _
          (show "interfaces" ≠ "failed" by decide)
          (show "interfaces" ≠ "failed_reason" by decide), hmI, hInone]
      · intro h; rw [h] at ht; exact absurd ht (by decide)
      · intro _ _; exact dlookup_markFailed_reason _ _
      · intro _ h; exact absurd hs h
    · rw [if_neg hs]
      refine ⟨?_, ?_, ?_, ?_, ?_⟩
      · rw [dlookup_dset_ne _ _ (show "failed" ≠ "serial" by decide)]
        exact dlookup_markFailed_failed _ _
      · simp [hasKey, dlookup_dset_ne _ _ (show "interfaces" ≠ "serial" by decide),
          hmI, hInone]
      · intro h; rw [h] at ht; exact absurd ht (by decide)
      · intro _ h; exact absurd h hs
      · intro _ _
        rw [dlookup_dset_ne _ _ (show "failed_reason" ≠ "serial" by decide)]
        exact dlookup_markFailed_reason _ _
  · have ht2 : hasKey (markFailed data "Unsupported platform arista_eos") "type"
        = false := by
      rw [htype]
      exact Bool.not_eq_true _ ▸ (by simpa using ht)
    have hred2 : processTail lookupSerial canonical typeMap (.s "arista_eos") name
        (markFailed data "Unsupported platform arista_eos")
        = markFailed (markFailed data "Unsupported platform arista_eos")
          "Cannot connect to device." := by
      unfold processTail
      rw [if_neg (by simp [ht2])]
    rw [hred2]
    refine ⟨dlookup_markFailed_failed _ _, ?_, ?_, ?_, ?_⟩
    · simp [hasKey, dlookup_markFailed_ne _ _
        (show "interfaces" ≠ "failed" by decide)
        (show "interfaces" ≠ "failed_reason" by decide), hmI, hInone]
    · intro _; exact dlookup_markFailed_reason _ _
    · intro h; rw [h] at ht; exact absurd rfl ht
    · intro h; rw [h] at ht; exact absurd rfl ht

/-- C8 witness: the amended theorem at a concrete device with `type` data
and a non-empty serial, every hypothesis discharged. -/
theorem c8_witness :
    ∃ out, format_results serialSome canonId tmTest
        [("sw9", [("platform", .s "arista_eos"), ("type", .list [])])]
        = [("sw9", out)] ∧
      dlookup out "failed" = some (.b true) ∧
      hasKey out "interfaces" = false ∧
      (hasKey ([("platform", .s "arista_eos"), ("type", .list [])] : Obj) "type"
          = false →
        dlookup out "failed_reason" = some (.s "Cannot connect to device.")) ∧
      (hasKey ([("platform", .s "arista_eos"), ("type", .list [])] : Obj) "type"
          = true → "SER123" = "" →
        dlookup out "failed_reason"
          = some (.s "Serial not found for device in Nautobot.")) ∧
      (hasKey ([("platform", .s "arista_eos"), ("type", .list [])] : Obj) "type"
          = true → "SER123" ≠ "" →
        dlookup out "failed_reason"
          = some (.s "Unsupported platform arista_eos")) :=
  c8_unsupported_platform serialSome canonId tmTest "sw9"
    [("platform", .s "arista_eos"), ("type", .list [])] "SER123" rfl rfl rfl

/-!
Claim C10.
-/

/-- C10: when a device's data lacks the `platform` key, the support check
never uses a platform from that device's own data.  (a) For the first
device of the call the `platform` local is unbound, the read raises, and
the device is marked failed with a reason beginning "Error formatting
device:".  (b) When an earlier device in the same call declared a platform
`p`, that stale `p` is silently reused for the later device's support
check — observable as the later record being marked
"Unsupported platform p" for a `p` it never declared. -/
theorem c10_stale_platform_reuse (lookupSerial : String → Except String String)
    (canonical : String → String) (typeMap : List (String × String)) :
    (∀ name data rest, hasKey data "platform" = false →
      ∃ out r2, format_results lookupSerial canonical typeMap ((name, data) :: rest)
          = (name, out) :: r2 ∧
        dlookup out "failed" = some (.b true) ∧
        ∃ r, dlookup out "failed_reason"
          = some (.s ("Error formatting device:" ++ r))) ∧
    (∀ n1 d1 n2 d2 p s, dlookup d1 "platform" = some (.s p) →
      supportedPlatforms.any (valEq (.s p)) = false →
      hasKey d2 "platform" = false → hasKey d2 "type" = true →
      lookupSerial n2 = .ok s → s ≠ "" →
      ∃ out1 out2, format_results lookupSerial canonical typeMap
          [(n1, d1), (n2, d2)] = [(n1, out1), (n2, out2)] ∧
        dlookup out2 "failed_reason"
          = some (.s ("Unsupported platform " ++ p))) := by
  constructor
  · intro name data rest hplat
    have hred : (processDevice lookupSerial canonical typeMap none name data)
        = (markFailed data
            "Error formatting device: local variable platform referenced before assignment",
           none) := by
      unfold processDevice
      rw [if_neg (by simp [hplat])]
    refine ⟨(processDevice lookupSerial canonical typeMap none name data).1,
      formatResultsGo lookupSerial canonical typeMap
        (processDevice lookupSerial canonical typeMap none name data).2 rest,
      rfl, ?_, ?_⟩
    · rw [hred]; exact dlookup_markFailed_failed _ _
    · refine ⟨" local variable platform referenced before assignment", ?_⟩
      rw [hred]
      exact dlookup_markFailed_reason _ _
  · intro n1 d1 n2 d2 p s hplat1 hunsup hplat2 htype2 hser hs
    have hkey1 : hasKey d1 "platform" = true := by simp [hasKey, hplat1]
    have hst1 : (processDevice lookupSerial canonical typeMap none n1 d1).2
        = some (.s p) := by
      unfold processDevice
      rw [if_pos hkey1, hplat1]
      rfl
    have hred2 : (processDevice lookupSerial canonical typeMap (some (.s p)) n2 d2).1
        = dset (markFailed d2 ("Unsupported platform " ++ pyStr (.s p)))
            "serial" (.s s) := by
      unfold processDevice processWithPlatform
      rw [if_neg (by simp [hplat2])]
      show processTail lookupSerial canonical typeMap (.s p) n2
          (if supportedPlatforms.any (valEq (.s p)) then d2
           else markFailed d2 ("Unsupported platform " ++ pyStr (.s p)))
        = _
      rw [hunsup]
      simp only [Bool.false_eq_true, if_false]
      unfold processTail
      rw [if_pos (by
        simpa [hasKey, dlookup_markFailed_ne _ _ (show "type" ≠ "failed" by decide)
          (show "type" ≠ "failed_reason" by decide)] using htype2), hser]
      show afterSerial canonical typeMap (.s p)
          (if s = "" then
            markFailed (markFailed d2 ("Unsupported platform " ++ pyStr (.s p)))
              "Serial not found for device in Nautobot."
          else dset (markFailed d2 ("Unsupported platform " ++ pyStr (.s p)))
            "serial" (.s s)) = _
      rw [if_neg hs, afterSerial_unsupported _ _ _ _ hunsup]
    refine ⟨(processDevice lookupSerial canonical typeMap none n1 d1).1,
      (processDevice lookupSerial canonical typeMap
        (processDevice lookupSerial canonical typeMap none n1 d1).2 n2 d2).1,
      rfl, ?_⟩
    rw [hst1, hred2,
      dlookup_dset_ne _ _ (show "failed_reason" ≠ "serial" by decide)]
    exact dlookup_markFailed_reason _ _

/-- C10 witness: the theorem applied to concrete calls — a first device
with no `platform` key, and a two-device call where the second device is
judged by the first device's platform `weird_os`. -/
theorem c10_witness :
    (∃ out r2, format_results serialSome canonId tmTest
        [("swA", [("x", .i 1)])] = ("swA", out) :: r2 ∧
      dlookup out "failed" = some (.b true) ∧
      ∃ r, dlookup out "failed_reason"
        = some (.s ("Error formatting device:" ++ r))) ∧
    (∃ out1 out2, format_results serialSome canonId tmTest
        [("swA", [("platform", .s "weird_os")]),
         ("swB", [("type", .list []), ("mtu", .i 9)])]
        = [("swA", out1), ("swB", out2)] ∧
      dlookup out2 "failed_reason"
        = some (.s ("Unsupported platform " ++ "weird_os"))) :=
  ⟨(c10_stale_platform_reuse serialSome canonId tmTest).1
      "swA" [("x", .i 1)] [] rfl,
   (c10_stale_platform_reuse serialSome canonId tmTest).2
      "swA" [("platform", .s "weird_os")] "swB"
      [("type", .list []), ("mtu", .i 9)] "weird_os" "SER123"
      rfl (by decide) rfl rfl rfl (by decide)⟩

/-!
Claim C4.
-/

/-- C4 counterexample: this extractor has no notion of a declared iterable
type.  A one-element list holding a *mapping* is unwrapped to the mapping
even though no field declares `dict` (the claim says it must stay
wrapped), and an empty list stays an empty list (the claim says it becomes
`{}` or `""` depending on the declared type). -/
theorem c4_counterexample :
    perform_data_extraction renderTest jloadsNone
        (extractConst (.list [.dict [("a", .s "b")]])) "h" "f"
        [("commands", .list [.dict [("command", .s "show x"), ("jpath", .s "q")]])]
        ⟨"show x", false, .dict []⟩
      = .ok [("f", .dict [("a", .s "b")])] ∧
    perform_data_extraction renderTest jloadsNone
        (extractConst (.list [])) "h" "f"
        [("commands", .list [.dict [("command", .s "show x"), ("jpath", .s "q")]])]
        ⟨"show x", false, .dict []⟩
      = .ok [("f", .list [])] :=
  ⟨rfl, rfl⟩

/-- C4 (amended): without a post-processor, the extractor unwraps a
one-element list to its sole element whatever that element is (scalar or
mapping alike), and leaves every other shape — including the empty list —
unchanged; no declared iterable type exists or is consulted. -/
theorem c4_singleton_unwrap (render : String → Val → String → Except String String)
    (jloads : String → Option Val)
    (extractJson : Val → String → Except String Val)
    (host field : String) (ci o : Obj) (tr : TaskResult) (jp rq : String)
    (v : Val)
    (hcs : dlookup ci "commands" = some (.list [.dict o]))
    (hcmd : dlookup o "command" = some (.s tr.name))
    (hjp : dlookup o "jpath" = some (.s jp))
    (hrender : render jp (.s host) host = .ok rq)
    (hfail : tr.failed = false)
    (hraw : rawExtract jloads extractJson tr rq = .ok v)
    (hpp : dlookup o "post_processor" = none)
    (hvp : dlookup ci "validator_pattern" = none) :
    perform_data_extraction render jloads extractJson host field ci tr
      = .ok [(field, flattenSingleton v)] ∧
    (∀ m, v = .list [.dict m] →
      perform_data_extraction render jloads extractJson host field ci tr
        = .ok [(field, .dict m)]) ∧
    (v = .list [] →
      perform_data_extraction render jloads extractJson host field ci tr
        = .ok [(field, .list [])]) := by
  have hmain : perform_data_extraction render jloads extractJson host field ci tr
      = .ok [(field, flattenSingleton v)] := by
    unfold perform_data_extraction
    simp only [getItem, hcs, ebind_ok, pyIter]
    unfold pdeLoop
    simp [getItem, hcmd, hjp, asStr, hrender, hfail, hraw, getOpt, hpp,
      truthyOpt, hvp, valEq, ebind_ok]
    rfl
  refine ⟨hmain, ?_, ?_⟩
  · intro m hv
    rw [hmain, hv]
    rfl
  · intro hv
    rw [hmain, hv]
    rfl

/-- C4 witness: the amended theorem at a concrete singleton-mapping
extraction, every hypothesis discharged. -/
theorem c4_witness :
    perform_data_extraction renderTest jloadsNone
        (extractConst (.list [.dict [("a", .s "b")]])) "h" "f"
        [("commands", .list [.dict [("command", .s "show x"), ("jpath", .s "q")]])]
        ⟨"show x", false, .dict []⟩
      = .ok [("f", flattenSingleton (.list [.dict [("a", .s "b")]]))] :=
  (c4_singleton_unwrap renderTest jloadsNone
    (extractConst (.list [.dict [("a", .s "b")]])) "h" "f"
    [("commands", .list [.dict [("command", .s "show x"), ("jpath", .s "q")]])]
    [("command", .s "show x"), ("jpath", .s "q")]
    ⟨"show x", false, .dict []⟩ "q" "q" (.list [.dict [("a", .s "b")]])
    rfl rfl rfl rfl rfl rfl rfl rfl).1

/-!
Claim C7.
-/

/-- C7 counterexample: a post-processing template that raises (e.g. a
strict-undefined variable reference) propagates out of
`extract_show_data` — the whole extraction for the device aborts with the
raised error instead of degrading the single field. -/
theorem c7_counterexample :
    (extract_show_data renderSel jloadsNone (extractConst (.s "v")) "h"
        "cisco_ios"
        [("network_importer", .dict [("serial", .dict [("commands", .dict
          [("command", .s "show x"), ("jpath", .s "q"),
           ("post_processor", .s "pp")])])])]
        [⟨"show x", false, .dict []⟩] "network_importer").1
      = .error "UndefinedError" :=
  rfl

/-- C7 (amended): the extractor catches only the JSON-decode failure of a
string task result (degrading the extracted value to `None`); an error
raised by the path-query evaluator, or by rendering the post-processing
template, propagates out of `perform_data_extraction`, and a propagating
field error aborts `extract_show_data` for the whole device. -/
theorem c7_errors_propagate :
    (∀ (render : String → Val → String → Except String String) jloads
        extractJson host field (ci o : Obj) (tr : TaskResult) (jp rq pp e : String)
        (v : Val),
      dlookup ci "commands" = some (.list [.dict o]) →
      dlookup o "command" = some (.s tr.name) →
      dlookup o "jpath" = some (.s jp) →
      render jp (.s host) host = .ok rq →
      tr.failed = false →
      rawExtract jloads extractJson tr rq = .ok v →
      dlookup o "post_processor" = some (.s pp) → pp ≠ "" →
      render pp v host = .error e →
      perform_data_extraction render jloads extractJson host field ci tr
        = .error e) ∧
    (∀ (render : String → Val → String → Except String String) jloads
        extractJson host field (ci o : Obj) (tr : TaskResult) (jp rq e : String),
      dlookup ci "commands" = some (.list [.dict o]) →
      dlookup o "command" = some (.s tr.name) →
      dlookup o "jpath" = some (.s jp) →
      render jp (.s host) host = .ok rq →
      tr.failed = false →
      rawExtract jloads extractJson tr rq = .error e →
      perform_data_extraction render jloads extractJson host field ci tr
        = .error e) ∧
    (∀ (jloads : String → Option Val) extractJson (tr : TaskResult)
        (txt rq : String),
      tr.result = .s txt → jloads txt = none →
      rawExtract jloads extractJson tr rq = .ok .null) ∧
    (∀ (render : String → Val → String → Except String String) jloads
        extractJson host hp getter f2 (ci : Obj) (ppi : Obj) (tr : TaskResult)
        (trrest : List TaskResult) (e : String),
      dlookup ppi getter = some (.dict [(f2, .dict ci)]) →
      truthyOpt (dlookup ci "commands") = true →
      normalizeCommands ci = ci →
      perform_data_extraction render jloads extractJson host f2 ci tr
        = .error e →
      (extract_show_data render jloads extractJson host hp ppi
        (tr :: trrest) getter).1 = .error e) := by
  refine ⟨?_, ?_, ?_, ?_⟩
  · intro render jloads extractJson host field ci o tr jp rq pp e v
      hcs hcmd hjp hrender hfail hraw hpp hppne hpr
    unfold perform_data_extraction
    simp only [getItem, hcs, ebind_ok, pyIter]
    unfold pdeLoop
    simp [getItem, hcmd, hjp, asStr, hrender, hfail, hraw, getOpt, hpp,
      truthyOpt, pyTruthy, hppne, hpr, valEq, ebind_ok, ebind_err]
  · intro render jloads extractJson host field ci o tr jp rq e
      hcs hcmd hjp hrender hfail hraw
    unfold perform_data_extraction
    simp only [getItem, hcs, ebind_ok, pyIter]
    unfold pdeLoop
    simp [getItem, hcmd, hjp, asStr, hrender, hfail, hraw, valEq, ebind_ok,
      ebind_err]
  · intro jloads extractJson tr txt rq hres hjl
    simp [rawExtract, hres, hjl]
  · intro render jloads extractJson host hp getter f2 ci ppi tr trrest e
      hppi htr hnorm hpde
    unfold extract_show_data
    rw [hppi]
    unfold esdLoop
    simp only [htr, if_true]
    unfold esdFlat
    rw [hnorm]
    simp [hpde]

/-- C7 witness: the amended theorem applied at concrete inputs — a failing
post-processor template, a failing path query, a caught JSON-decode
failure, and the device-level abort. -/
theorem c7_witness :
    perform_data_extraction renderSel jloadsNone (extractConst (.s "v")) "h" "f"
        [("commands", .list [.dict [("command", .s "show x"), ("jpath", .s "q"),
          ("post_processor", .s "pp")]])]
        ⟨"show x", false, .dict []⟩
      = .error "UndefinedError" ∧
    rawExtract jloadsNone (extractConst (.s "v"))
        ⟨"show x", false, .s "notjson"⟩ "q" = .ok .null ∧
    (extract_show_data renderSel jloadsNone (extractConst (.s "v")) "h"
        "cisco_ios"
        [("network_importer", .dict [("serial", .dict [("commands", .list [.dict
          [("command", .s "show x"), ("jpath", .s "q"),
           ("post_processor", .s "pp")]])])])]
        [⟨"show x", false, .dict []⟩] "network_importer").1
      = .error "UndefinedError" :=
  ⟨c7_errors_propagate.1 renderSel jloadsNone (extractConst (.s "v")) "h" "f"
      [("commands", .list [.dict [("command", .s "show x"), ("jpath", .s "q"),
        ("post_processor", .s "pp")]])]
      [("command", .s "show x"), ("jpath", .s "q"), ("post_processor", .s "pp")]
      ⟨"show x", false, .dict []⟩ "q" "q" "pp" "UndefinedError" (.s "v")
      rfl rfl rfl rfl rfl rfl rfl (by decide) rfl,
   c7_errors_propagate.2.2.1 jloadsNone (extractConst (.s "v"))
      ⟨"show x", false, .s "notjson"⟩ "notjson" "q" rfl rfl,
   c7_errors_propagate.2.2.2 renderSel jloadsNone (extractConst (.s "v")) "h"
      "cisco_ios" "network_importer" "serial"
      [("commands", .list [.dict [("command", .s "show x"), ("jpath", .s "q"),
        ("post_processor", .s "pp")]])]
      [("network_importer", .dict [("serial", .dict [("commands", .list [.dict
        [("command", .s "show x"), ("jpath", .s "q"),
         ("post_processor", .s "pp")]])])])]
      ⟨"show x", false, .dict []⟩ [] "UndefinedError"
      rfl rfl rfl
      (c7_errors_propagate.1 renderSel jloadsNone (extractConst (.s "v")) "h"
        "serial"
        [("commands", .list [.dict [("command", .s "show x"), ("jpath", .s "q"),
          ("post_processor", .s "pp")]])]
        [("command", .s "show x"), ("jpath", .s "q"), ("post_processor", .s "pp")]
        ⟨"show x", false, .dict []⟩ "q" "q" "pp" "UndefinedError" (.s "v")
        rfl rfl rfl rfl rfl rfl rfl (by decide) rfl)⟩

/-!
Claim C5.
-/

theorem hasKey_dset_mono {d : Obj} {k : String} (k2 : String) (v : Val)
    (h : hasKey d k = true) : hasKey (dset d k2 v) k = true := by
  by_cases he : k = k2
  · subst he; simp [hasKey, dlookup_dset_self]
  · rw [hasKey_dset_ne d v he]; exact h

theorem hasKey_dupdate_left {d : Obj} (r : Obj) {k : String}
    (h : hasKey d k = true) : hasKey (dupdate d r) k = true := by
  induction r generalizing d with
  | nil => exact h
  | cons p rest ih =>
      show hasKey (dupdate (dset d p.1 p.2) rest) k = true
      exact ih (hasKey_dset_mono p.1 p.2 h)

theorem hasKey_dupdate_right (d : Obj) {r : Obj} {k : String}
    (h : hasKey r k = true) : hasKey (dupdate d r) k = true := by
  induction r generalizing d with
  | nil => simp [hasKey, dlookup] at h
  | cons p rest ih =>
      obtain ⟨k2, v⟩ := p
      by_cases he : hasKey rest k = true
      · exact ih (d := dset d k2 v) he
      · have hk2 : k2 = k := by
          by_cases hq : k2 = k
          · exact hq
          · exfalso
            rw [hasKey, dlookup, if_neg hq] at h
            exact he h
        subst hk2
        exact hasKey_dupdate_left rest (by simp [hasKey, dlookup_dset_self])

/-- Keys already in the aggregate survive the rest of the extraction
loop (each iteration only `update`s the aggregate). -/
theorem esdLoop_mono (render : String → Val → String → Except String String)
    (jloads : String → Option Val)
    (extractJson : Val → String → Except String Val) (host : String)
    (trs : List TaskResult) :
    ∀ (entries : List (String × Val)) (acc agg : Obj) (k : String),
      (esdLoop render jloads extractJson host trs acc entries).1 = .ok agg →
      hasKey acc k = true → hasKey agg k = true := by
  intro entries
  induction entries with
  | nil =>
      intro acc agg k h hk
      unfold esdLoop at h
      simp only at h
      injection h with h
      rw [← h]
      exact hk
  | cons p rest ih =>
      intro acc agg k h hk
      obtain ⟨f, ci⟩ := p
      unfold esdLoop at h
      cases ci with
      | dict o =>
          by_cases ht : truthyOpt (dlookup o "commands") = true
          · simp only [ht, if_true] at h
            rcases hf : esdFlat render jloads extractJson host trs f o with ⟨fr, o2⟩
            rw [hf] at h
            cases fr with
            | error e => simp at h
            | ok r =>
                simp only at h
                exact ih _ _ _ h (hasKey_dupdate_left r hk)
          · simp only [ht, Bool.false_eq_true, if_false] at h
            rcases hn : esdNested render jloads extractJson host trs [] o with ⟨nr, o2⟩
            rw [hn] at h
            cases nr with
            | error e => simp at h
            | ok r =>
                simp only at h
                exact ih _ _ _ h (hasKey_dupdate_left r hk)
      | s st => simp at h
      | i n => simp at h
      | b v => simp at h
      | null => simp at h
      | list l => simp at h

/-- If one flat field entry of the loop extracts successfully and its
result carries its field key, the key reaches the final aggregate. -/
theorem esdLoop_field_key (render : String → Val → String → Except String String)
    (jloads : String → Option Val)
    (extractJson : Val → String → Except String Val) (host : String)
    (trs : List TaskResult) :
    ∀ (pre post : List (String × Val)) (field : String) (o acc agg r : Obj),
      (esdLoop render jloads extractJson host trs acc
        (pre ++ (field, .dict o) :: post)).1 = .ok agg →
      truthyOpt (dlookup o "commands") = true →
      (esdFlat render jloads extractJson host trs field o).1 = .ok r →
      hasKey r field = true →
      hasKey agg field = true := by
  intro pre
  induction pre with
  | nil =>
      intro post field o acc agg r h ht hres hkey
      simp only [List.nil_append] at h
      unfold esdLoop at h
      simp only [ht, if_true] at h
      rcases hf : esdFlat render jloads extractJson host trs field o with ⟨fr, o2⟩
      rw [hf] at h hres
      simp only at hres
      cases fr with
      | error e => simp at hres
      | ok r2 =>
          simp only at h
          have hr : r2 = r := by injection hres
          subst hr
          exact esdLoop_mono render jloads extractJson host trs _ _ _ _ h
            (hasKey_dupdate_right acc hkey)
  | cons p pre2 ih =>
      intro post field o acc agg r h ht hres hkey
      obtain ⟨f0, c0⟩ := p
      simp only [List.cons_append] at h
      unfold esdLoop at h
      cases c0 with
      | dict o0 =>
          by_cases h0 : truthyOpt (dlookup o0 "commands") = true
          · simp only [h0, if_true] at h
            rcases hf : esdFlat render jloads extractJson host trs f0 o0 with ⟨fr, o2⟩
            rw [hf] at h
            cases fr with
            | error e => simp at h
            | ok r0 =>
                simp only at h
                exact ih _ _ _ _ _ _ h ht hres hkey
          · simp only [h0, Bool.false_eq_true, if_false] at h
            rcases hn : esdNested render jloads extractJson host trs [] o0 with ⟨nr, o2⟩
            rw [hn] at h
            cases nr with
            | error e => simp at h
            | ok r0 =>
                simp only at h
                exact ih _ _ _ _ _ _ h ht hres hkey
      | s st => simp at h
      | i n => simp at h
      | b v => simp at h
      | null => simp at h
      | list l => simp at h

/-- C5 counterexample: a run whose field map carries
`interfaces__tagged_vlans` extracts it like any other field and the key
appears in the aggregate — no sync-scope flag exists or is consulted, so
the key is not absent as the claim requires for `sync_vlans=false` runs. -/
theorem c5_counterexample :
    (extract_show_data renderTest jloadsNone (extractConst (.s "10")) "h"
        "cisco_ios"
        [("network_importer", .dict [("interfaces__tagged_vlans", .dict
          [("commands", .list [.dict
            [("command", .s "show vlan"), ("jpath", .s "q")]])])])]
        [⟨"show vlan", false, .dict []⟩] "network_importer").1
      = .ok [("interfaces__tagged_vlans", .s "10")] :=
  rfl

/-- C5 (amended): the extraction driver consults no sync-scope flags and
skips no field: *every* flat entry of the field map — whatever its name,
including `interfaces__tagged_vlans`, `interfaces__untagged_vlan` and the
VRF fields — whose extraction succeeds with its key contributes that key
to the per-device aggregate. -/
theorem c5_no_field_skipped (render : String → Val → String → Except String String)
    (jloads : String → Option Val)
    (extractJson : Val → String → Except String Val)
    (host hp getter : String) (ppi : Obj) (trs : List TaskResult)
    (entries pre post : List (String × Val)) (field : String) (o r agg : Obj)
    (hppi : dlookup ppi getter = some (.dict entries))
    (hsplit : entries = pre ++ (field, .dict o) :: post)
    (ht : truthyOpt (dlookup o "commands") = true)
    (hres : (esdFlat render jloads extractJson host trs field o).1 = .ok r)
    (hkey : hasKey r field = true)
    (hok : (extract_show_data render jloads extractJson host hp ppi trs
      getter).1 = .ok agg) :
    hasKey agg field = true := by
  unfold extract_show_data at hok
  rw [hppi] at hok
  simp only at hok
  subst hsplit
  exact esdLoop_field_key render jloads extractJson host trs pre post field o
    [] agg r hok ht hres hkey

/-- C5 witness: the amended theorem at the concrete
`interfaces__tagged_vlans` run, every hypothesis discharged. -/
theorem c5_witness :
    hasKey [("interfaces__tagged_vlans", Val.s "10")]
      "interfaces__tagged_vlans" = true :=
  c5_no_field_skipped renderTest jloadsNone (extractConst (.s "10")) "h"
    "cisco_ios" "network_importer"
    [("network_importer", .dict [("interfaces__tagged_vlans", .dict
      [("commands", .list [.dict
        [("command", .s "show vlan"), ("jpath", .s "q")]])])])]
    [⟨"show vlan", false, .dict []⟩]
    [("interfaces__tagged_vlans", .dict [("commands", .list [.dict
      [("command", .s "show vlan"), ("jpath", .s "q")]])])]
    [] [] "interfaces__tagged_vlans"
    [("commands", .list [.dict [("command", .s "show vlan"), ("jpath", .s "q")]])]
    [("interfaces__tagged_vlans", .s "10")]
    [("interfaces__tagged_vlans", .s "10")]
    rfl rfl rfl rfl rfl rfl

/-!
Claim C6.
-/

/-- Setting a key to the value it already holds leaves the dictionary
unchanged. -/
theorem dset_lookup_self {d : Obj} {k : String} {v : Val}
    (h : dlookup d k = some v) : dset d k v = d := by
  induction d with
  | nil => simp [dlookup] at h
  | cons kv rest ih =>
      obtain ⟨a, w⟩ := kv
      by_cases ha : a = k
      · subst ha
        rw [dlookup, if_pos rfl] at h
        injection h with h
        rw [dset, if_pos rfl, h]
      · rw [dlookup, if_neg ha] at h
        rw [dset, if_neg ha, ih h]

/-- A field map whose single flat entry holds a bare-mapping `commands`
spec, on which `extract_show_data` performs its in-place normalization. -/
def c6ppi : Obj :=
  [("network_importer", .dict [("serial", .dict [("commands", .dict
    [("command", .s "show x"), ("jpath", .s "q")])])])]

/-- C6 counterexample: after the call, the shared field map holds
`commands` as a one-element *list* where it held a bare mapping before —
the normalization mutates the shared configuration in place, so the field
map is not structurally identical before and after the call. -/
theorem c6_counterexample :
    dlookup c6ppi "network_importer"
      = some (.dict [("serial", .dict [("commands", .dict
          [("command", .s "show x"), ("jpath", .s "q")])])]) ∧
    dlookup ((extract_show_data renderTest jloadsNone (extractConst (.s "v"))
        "h" "cisco_ios" c6ppi [⟨"show x", false, .dict []⟩]
        "network_importer").2) "network_importer"
      = some (.dict [("serial", .dict [("commands", .list [.dict
          [("command", .s "show x"), ("jpath", .s "q")]])])]) ∧
    (extract_show_data renderTest jloadsNone (extractConst (.s "v"))
        "h" "cisco_ios" c6ppi [⟨"show x", false, .dict []⟩]
        "network_importer").2 ≠ c6ppi := by
  refine ⟨rfl, rfl, ?_⟩
  intro h
  have h2 := congrArg (fun d => dlookup d "network_importer") h
  simp only at h2
  rw [show dlookup ((extract_show_data renderTest jloadsNone
      (extractConst (.s "v")) "h" "cisco_ios" c6ppi
      [⟨"show x", false, .dict []⟩] "network_importer").2) "network_importer"
    = some (.dict [("serial", .dict [("commands", .list [.dict
        [("command", .s "show x"), ("jpath", .s "q")]])])]) from rfl] at h2
  rw [show dlookup c6ppi "network_importer"
    = some (.dict [("serial", .dict [("commands", .dict
        [("command", .s "show x"), ("jpath", .s "q")])])]) from rfl] at h2
  simp at h2

/-- C6 (amended): `extract_show_data` does not work on a per-call copy; it
normalizes `commands` in place in the shared field map.  For a field map
with one flat entry: when `commands` is already a (non-empty) list the map
is returned unchanged, but when `commands` is a non-empty bare mapping the
entry is rebound to the one-element list inside the shared map — before
and after differ. -/
theorem c6_field_map_mutation (render : String → Val → String → Except String String)
    (jloads : String → Option Val)
    (extractJson : Val → String → Except String Val)
    (host hp getter field : String) (ppi o : Obj)
    (trs : List TaskResult)
    (hppi : dlookup ppi getter = some (.dict [(field, .dict o)])) :
    (∀ l, dlookup o "commands" = some (.list l) → l ≠ [] →
      (extract_show_data render jloads extractJson host hp ppi trs getter).2
        = ppi) ∧
    (∀ c, dlookup o "commands" = some (.dict c) → c ≠ [] →
      (extract_show_data render jloads extractJson host hp ppi trs getter).2
        = dset ppi getter (.dict [(field,
            .dict (dset o "commands" (.list [.dict c])))])) := by
  constructor
  · intro l hcs hl
    have ht : truthyOpt (dlookup o "commands") = true := by
      simp [truthyOpt, hcs, pyTruthy, hl]
    have hnorm : normalizeCommands o = o := by
      unfold normalizeCommands
      rw [hcs]
    unfold extract_show_data
    rw [hppi]
    unfold esdLoop
    simp only [ht, if_true]
    unfold esdFlat
    rw [hnorm]
    have hmatch : ∀ (p : Except String Obj × Obj), p.2 = o →
        (match p with
          | (.error e, o2) => ((.error e : Except String Obj),
              [(field, Val.dict o2)])
          | (.ok r, o2) =>
              ((esdLoop render jloads extractJson host trs (dupdate [] r) []).1,
               (field, Val.dict o2)
                 :: (esdLoop render jloads extractJson host trs
                      (dupdate [] r) []).2)).2
          = [(field, Val.dict o)] := by
      intro p hp
      rcases p with ⟨pr, po⟩
      cases pr <;> simp_all [esdLoop]
    rcases trs with _ | ⟨tr, trrest⟩
    · simp only
      exact dset_lookup_self hppi
    · simp only
      rw [hmatch _ rfl]
      exact dset_lookup_self hppi
  · intro c hcs hc
    have ht : truthyOpt (dlookup o "commands") = true := by
      simp [truthyOpt, hcs, pyTruthy, hc]
    have hnorm : normalizeCommands o = dset o "commands" (.list [.dict c]) := by
      unfold normalizeCommands
      rw [hcs]
    unfold extract_show_data
    rw [hppi]
    unfold esdLoop
    simp only [ht, if_true]
    unfold esdFlat
    rw [hnorm]
    have hmatch : ∀ (p : Except String Obj × Obj),
        p.2 = dset o "commands" (.list [.dict c]) →
        (match p with
          | (.error e, o2) => ((.error e : Except String Obj),
              [(field, Val.dict o2)])
          | (.ok r, o2) =>
              ((esdLoop render jloads extractJson host trs (dupdate [] r) []).1,
               (field, Val.dict o2)
                 :: (esdLoop render jloads extractJson host trs
                      (dupdate [] r) []).2)).2
          = [(field, Val.dict (dset o "commands" (.list [.dict c])))] := by
      intro p hp
      rcases p with ⟨pr, po⟩
      cases pr <;> simp_all [esdLoop]
    rcases trs with _ | ⟨tr, trrest⟩
    · simp only
    · simp only
      rw [hmatch _ rfl]

/-- C6 witness: the amended theorem applied at a concrete field map whose
`commands` is a bare mapping, every hypothesis discharged. -/
theorem c6_witness :
    (extract_show_data renderTest jloadsNone (extractConst (.s "v"))
        "h" "cisco_ios" c6ppi [⟨"show x", false, .dict []⟩]
        "network_importer").2
      = dset c6ppi "network_importer" (.dict [("serial",
          .dict (dset [("commands", .dict
            [("command", .s "show x"), ("jpath", .s "q")])] "commands"
            (.list [.dict [("command", .s "show x"), ("jpath", .s "q")]])))]) :=
  (c6_field_map_mutation renderTest jloadsNone (extractConst (.s "v"))
    "h" "cisco_ios" "network_importer" "serial" c6ppi
    [("commands", .dict [("command", .s "show x"), ("jpath", .s "q")])]
    [⟨"show x", false, .dict []⟩] rfl).2
    [("command", .s "show x"), ("jpath", .s "q")] rfl (by simp)

/-!
Claim C9.
-/

/-- An NX-OS device aggregate (spec Scenario D): the interface `Vlan10`
has an mtu entry, and a VRF names it as a member through the upstream
rendering `VLAN10`. -/
def c9dev : Obj :=
  [("serial", .s "ABC123"),
   ("mtu", .list [.dict [("interface", .s "Vlan10"), ("mtu", .i 1500)]]),
   ("type", .list []), ("ip_addresses", .list []), ("prefix_length", .list []),
   ("mac_address", .list []), ("description", .list []), ("link_status", .list []),
   ("mode", .list []),
   ("vrf_rds", .list [.dict [("id", .i 1), ("name", .s "mgmt"),
     ("default_rd", .s "65000:1")]]),
   ("vrf_interfaces", .list [.dict [("id", .i 1), ("interface", .s "VLAN10")]])]

/-- C9: for the Scenario D aggregate, under the stated behaviour of the
external `canonical_interface_name` (it renders both spellings in upstream
form, `VLAN10` for the VRF member and `Vlan10` unchanged),
`format_nxos_results` applies the `VLAN`→`Vlan` prefix rewrite during the
VRF merge, matches the existing `Vlan10` entry, and the final `interfaces`
output's `Vlan10` record carries `vrf = {name: mgmt, rd: 65000:1}`. -/
theorem c9_vlan_vrf_merge (canonical : String → String)
    (h1 : canonical "Vlan10" = "Vlan10") (h2 : canonical "VLAN10" = "VLAN10") :
    dlookup (format_nxos_results canonical tmTest c9dev).1 "interfaces"
    = some (.list [.dict [("Vlan10", .dict
        [("mtu", .i 1500), ("lag", .s ""), ("untagged_vlan", .dict []),
         ("tagged_vlans", .list []),
         ("vrf", .dict [("name", .s "mgmt"), ("rd", .s "65000:1")])])]]) := by
  have hc : nxosCompute canonical tmTest c9dev
      = .ok [.dict [("Vlan10", .dict
          [("mtu", .i 1500), ("lag", .s ""), ("untagged_vlan", .dict []),
           ("tagged_vlans", .list []),
           ("vrf", .dict [("name", .s "mgmt"), ("rd", .s "65000:1")])])]] := by
    unfold nxosCompute
    rw [show runStages [] (nxosStages tmTest c9dev)
        = .ok [("Vlan10", [("mtu", .i 1500)])] from rfl]
    simp only [ebind_ok]
    rw [show buildVrfDict [] (nxosVrfRds c9dev)
        = .ok [(.i 1, [("id", .i 1), ("name", .s "mgmt"),
            ("default_rd", .s "65000:1")])] from rfl]
    simp only [ebind_ok]
    rw [show addVrfInterfaces [(.i 1, [("id", .i 1), ("name", .s "mgmt"),
          ("default_rd", .s "65000:1")])] (nxosVrfInterfaces c9dev)
        = .ok [(.i 1, [("id", .i 1), ("name", .s "mgmt"),
            ("default_rd", .s "65000:1"),
            ("interfaces", .list [.s "VLAN10"])])] from rfl]
    simp only [ebind_ok]
    simp [foldItems, vrfMergeNxos, fieldStep, vrfMemberKey, vrfSetUpd, asStr,
      getItem, dlookup, pyIter, ebind_ok, h1, h2, strStartsWith, strDrop,
      applyDefaults, setdefaults, nxosDefaults, wrapIp, wrapRecord, ilookup,
      iset, hasKey, dset, pyTruthy, dupdate]
  unfold format_nxos_results
  rw [hc]
  rfl

/-- C9 witness: the theorem at a concrete canonicalizer satisfying both
hypotheses. -/
theorem c9_witness :
    dlookup (format_nxos_results canonId tmTest c9dev).1 "interfaces"
    = some (.list [.dict [("Vlan10", .dict
        [("mtu", .i 1500), ("lag", .s ""), ("untagged_vlan", .dict []),
         ("tagged_vlans", .list []),
         ("vrf", .dict [("name", .s "mgmt"), ("rd", .s "65000:1")])])]]) :=
  c9_vlan_vrf_merge canonId rfl rfl

/-!
Claim C3: infrastructure.

Key-membership is monotone along the attribute-list passes (`setdefault`
only adds entries), every pass indexes its items under their own key, the
defaults pass fills its keys into every record, and the VRF merge only
grows records.  Together these give: every interface name appearing in any
attribute list reaches the final `interfaces` list with the defaultable
fields present.
-/

theorem ilookup_iset_self (d : IDict) (k : String) (v : Obj) :
    ilookup (iset d k v) k = some v := by
  induction d with
  | nil => simp [iset, ilookup]
  | cons kv rest ih =>
      obtain ⟨a, w⟩ := kv
      by_cases h : a = k
      · simp [iset, h, ilookup]
      · simp [iset, h, ilookup, ih]

theorem ilookup_iset_ne (d : IDict) {k k2 : String} (v : Obj) (h : k2 ≠ k) :
    ilookup (iset d k v) k2 = ilookup d k2 := by
  induction d with
  | nil => simp [iset, ilookup, Ne.symm h]
  | cons kv rest ih =>
      obtain ⟨a, w⟩ := kv
      by_cases ha : a = k
      · subst ha
        simp [iset, ilookup, Ne.symm h]
      · simp only [iset, if_neg ha, ilookup]
        by_cases hb : a = k2 <;> simp [hb, ih]

theorem hasIKey_iset_mono {d : IDict} {k : String} (k2 : String) (v : Obj)
    (h : hasIKey d k = true) : hasIKey (iset d k2 v) k = true := by
  by_cases he : k = k2
  · subst he; simp [hasIKey, ilookup_iset_self]
  · rw [hasIKey, ilookup_iset_ne d v he]; exact h

/-- One attribute pass step only adds or updates entries: existing keys
survive. -/
theorem fieldStep_pres {gk : Val → Except String String}
    {gu : Val → Obj → Except String Obj} {d d2 : IDict} {item : Val}
    (h : fieldStep gk gu d item = .ok d2) {k : String}
    (hk : hasIKey d k = true) : hasIKey d2 k = true := by
  unfold fieldStep at h
  cases hgk : gk item with
  | error e => rw [hgk] at h; exact absurd h (by simp [ebind_err])
  | ok k0 =>
      rw [hgk] at h
      simp only [ebind_ok] at h
      cases hgu : gu item ((ilookup d k0).getD []) with
      | error e => rw [hgu] at h; exact absurd h (by simp [ebind_err])
      | ok sub2 =>
          rw [hgu] at h
          simp only [ebind_ok] at h
          injection h with h
          rw [← h]
          exact hasIKey_iset_mono k0 sub2 hk

/-- One attribute pass step registers its own item key. -/
theorem fieldStep_add {gk : Val → Except String String}
    {gu : Val → Obj → Except String Obj} {d d2 : IDict} {item : Val}
    (h : fieldStep gk gu d item = .ok d2) {k : String}
    (hgk : gk item = .ok k) : hasIKey d2 k = true := by
  unfold fieldStep at h
  rw [hgk] at h
  simp only [ebind_ok] at h
  cases hgu : gu item ((ilookup d k).getD []) with
  | error e => rw [hgu] at h; exact absurd h (by simp [ebind_err])
  | ok sub2 =>
      rw [hgu] at h
      simp only [ebind_ok] at h
      injection h with h
      rw [← h]
      simp [hasIKey, ilookup_iset_self]

/-- Folding a key-preserving step preserves keys. -/
theorem foldItems_pres {f : IDict → Val → Except String IDict}
    (hf : ∀ d item d2, f d item = .ok d2 →
      ∀ k, hasIKey d k = true → hasIKey d2 k = true) :
    ∀ {l : List Val} {d d2 : IDict} {k : String},
      foldItems f d l = .ok d2 → hasIKey d k = true → hasIKey d2 k = true := by
  intro l
  induction l with
  | nil =>
      intro d d2 k h hk
      unfold foldItems at h
      injection h with h
      rw [← h]; exact hk
  | cons item rest ih =>
      intro d d2 k h hk
      unfold foldItems at h
      cases hstep : f d item with
      | error e => rw [hstep] at h; exact absurd h (by simp [ebind_err])
      | ok dmid =>
          rw [hstep] at h
          simp only [ebind_ok] at h
          exact ih h (hf d item dmid hstep k hk)

/-- After folding an attribute pass, every item whose key computation
succeeds is registered. -/
theorem foldItems_add {gk : Val → Except String String}
    {gu : Val → Obj → Except String Obj} :
    ∀ {l : List Val} {d d2 : IDict} {item : Val} {k : String},
      foldItems (fieldStep gk gu) d l = .ok d2 → item ∈ l →
      gk item = .ok k → hasIKey d2 k = true := by
  intro l
  induction l with
  | nil => intro d d2 item k h hm; exact absurd hm (List.not_mem_nil item)
  | cons x rest ih =>
      intro d d2 item k h hm hgk
      unfold foldItems at h
      cases hstep : fieldStep gk gu d x with
      | error e => rw [hstep] at h; exact absurd h (by simp [ebind_err])
      | ok dmid =>
          rw [hstep] at h
          simp only [ebind_ok] at h
          rcases List.mem_cons.mp hm with hx | hx
          · subst hx
            exact foldItems_pres
              (fun d item d2 hs k hk => fieldStep_pres hs hk) h
              (fieldStep_add hstep hgk)
          · exact ih h hx hgk

/-- Running the attribute passes preserves existing keys. -/
theorem runStages_pres :
    ∀ {stages : List Stage} {d d2 : IDict} {k : String},
      runStages d stages = .ok d2 → hasIKey d k = true → hasIKey d2 k = true := by
  intro stages
  induction stages with
  | nil =>
      intro d d2 k h hk
      unfold runStages at h
      injection h with h
      rw [← h]; exact hk
  | cons st rest ih =>
      intro d d2 k h hk
      obtain ⟨gk, gu, l⟩ := st
      unfold runStages at h
      cases hfold : foldItems (fieldStep gk gu) d l with
      | error e => rw [hfold] at h; exact absurd h (by simp [ebind_err])
      | ok dmid =>
          rw [hfold] at h
          simp only [ebind_ok] at h
          exact ih h (foldItems_pres
            (fun d item d2 hs k hk => fieldStep_pres hs hk) hfold hk)

/-- Every item of every attribute pass whose key computation succeeds is
registered by the end of the passes. -/
theorem runStages_add :
    ∀ {pre post : List Stage} {gk : Val → Except String String}
      {gu : Val → Obj → Except String Obj} {l : List Val}
      {d d2 : IDict} {item : Val} {k : String},
      runStages d (pre ++ (gk, gu, l) :: post) = .ok d2 → item ∈ l →
      gk item = .ok k → hasIKey d2 k = true := by
  intro pre
  induction pre with
  | nil =>
      intro post gk gu l d d2 item k h hm hgk
      simp only [List.nil_append] at h
      unfold runStages at h
      cases hfold : foldItems (fieldStep gk gu) d l with
      | error e => rw [hfold] at h; exact absurd h (by simp [ebind_err])
      | ok dmid =>
          rw [hfold] at h
          simp only [ebind_ok] at h
          exact runStages_pres h (foldItems_add hfold hm hgk)
  | cons st pre2 ih =>
      intro post gk gu l d d2 item k h hm hgk
      obtain ⟨gk0, gu0, l0⟩ := st
      simp only [List.cons_append] at h
      unfold runStages at h
      cases hfold : foldItems (fieldStep gk0 gu0) d l0 with
      | error e => rw [hfold] at h; exact absurd h (by simp [ebind_err])
      | ok dmid =>
          rw [hfold] at h
          simp only [ebind_ok] at h
          exact ih h hm hgk

theorem hasIKey_mem_keys {d : IDict} {k : String}
    (h : hasIKey d k = true) : k ∈ d.map Prod.fst := by
  induction d with
  | nil => simp [hasIKey, ilookup] at h
  | cons kv rest ih =>
      obtain ⟨a, w⟩ := kv
      by_cases ha : a = k
      · simp [ha]
      · rw [hasIKey, ilookup, if_neg ha] at h
        simp [ih h]

/-- Records only grow from `d` to `d2`: every entry survives and keeps
all its fields. -/
def RecMono (d d2 : IDict) : Prop :=
  ∀ k rec, ilookup d k = some rec →
    ∃ rec2, ilookup d2 k = some rec2 ∧
      ∀ x, hasKey rec x = true → hasKey rec2 x = true

theorem recMono_refl (d : IDict) : RecMono d d :=
  fun _ rec h => ⟨rec, h, fun _ hx => hx⟩

theorem recMono_trans {d1 d2 d3 : IDict} (h1 : RecMono d1 d2)
    (h2 : RecMono d2 d3) : RecMono d1 d3 := by
  intro k rec h
  obtain ⟨r2, hl2, hg2⟩ := h1 k rec h
  obtain ⟨r3, hl3, hg3⟩ := h2 k r2 hl2
  exact ⟨r3, hl3, fun x hx => hg3 x (hg2 x hx)⟩

/-- A pass step whose record update only grows the record is
record-monotone. -/
theorem fieldStep_recMono {gk : Val → Except String String}
    {gu : Val → Obj → Except String Obj}
    (hgu : ∀ item sub sub2, gu item sub = .ok sub2 →
      ∀ x, hasKey sub x = true → hasKey sub2 x = true)
    {d d2 : IDict} {item : Val}
    (h : fieldStep gk gu d item = .ok d2) : RecMono d d2 := by
  unfold fieldStep at h
  cases hgk : gk item with
  | error e => rw [hgk] at h; exact absurd h (by simp [ebind_err])
  | ok k0 =>
      rw [hgk] at h
      simp only [ebind_ok] at h
      cases hup : gu item ((ilookup d k0).getD []) with
      | error e => rw [hup] at h; exact absurd h (by simp [ebind_err])
      | ok sub2 =>
          rw [hup] at h
          simp only [ebind_ok] at h
          injection h with h
          subst h
          intro k rec hrec
          by_cases hk : k = k0
          · subst hk
            refine ⟨sub2, ilookup_iset_self d k sub2, ?_⟩
            rw [hrec] at hup
            exact hgu item rec sub2 hup
          · exact ⟨rec, by rw [ilookup_iset_ne d sub2 hk]; exact hrec,
              fun _ hx => hx⟩

theorem foldItems_recMono {f : IDict → Val → Except String IDict}
    (hf : ∀ d item d2, f d item = .ok d2 → RecMono d d2) :
    ∀ {l : List Val} {d d2 : IDict},
      foldItems f d l = .ok d2 → RecMono d d2 := by
  intro l
  induction l with
  | nil =>
      intro d d2 h
      unfold foldItems at h
      injection h with h
      rw [← h]
      exact recMono_refl d
  | cons item rest ih =>
      intro d d2 h
      unfold foldItems at h
      cases hstep : f d item with
      | error e => rw [hstep] at h; exact absurd h (by simp [ebind_err])
      | ok dmid =>
          rw [hstep] at h
          simp only [ebind_ok] at h
          exact recMono_trans (hf d item dmid hstep) (ih h)

theorem vrfSetUpd_mono (vrf item : Val) (sub sub2 : Obj)
    (h : vrfSetUpd vrf item sub = .ok sub2) :
    ∀ x, hasKey sub x = true → hasKey sub2 x = true := by
  unfold vrfSetUpd at h
  cases hn : getItem vrf "name" with
  | error e => rw [hn] at h; exact absurd h (by simp [ebind_err])
  | ok n =>
      rw [hn] at h
      simp only [ebind_ok] at h
      cases hr : getItem vrf "default_rd" with
      | error e => rw [hr] at h; exact absurd h (by simp [ebind_err])
      | ok rd =>
          rw [hr] at h
          simp only [ebind_ok] at h
          injection h with h
          subst h
          intro x hx
          exact hasKey_dset_mono "vrf" _ hx

theorem vrfMergeIos_recMono (canonical : String → String) {d d2 : IDict}
    {vrf : Val} (h : vrfMergeIos canonical d vrf = .ok d2) : RecMono d d2 := by
  unfold vrfMergeIos at h
  cases hi : getItem vrf "interfaces" with
  | error e => rw [hi] at h; exact absurd h (by simp [ebind_err])
  | ok ifs =>
      rw [hi] at h
      simp only [ebind_ok] at h
      cases hit : pyIter ifs with
      | error e => rw [hit] at h; exact absurd h (by simp [ebind_err])
      | ok members =>
          rw [hit] at h
          simp only [ebind_ok] at h
          exact foldItems_recMono
            (fun d item d2 hs =>
              fieldStep_recMono (fun it sub sub2 hu => vrfSetUpd_mono vrf it sub sub2 hu) hs)
            h

theorem vrfMergeNxos_recMono (canonical : String → String) {d d2 : IDict}
    {vrf : Val} (h : vrfMergeNxos canonical d vrf = .ok d2) : RecMono d d2 := by
  unfold vrfMergeNxos at h
  cases vrf with
  | dict o =>
      replace h : (match dlookup o "interfaces" with
          | some ifs => do
              let members ← pyIter ifs
              foldItems (fieldStep (vrfMemberKey canonical)
                (vrfSetUpd (.dict o))) d members
          | none => (.ok d : Except String IDict)) = .ok d2 := h
      cases hli : dlookup o "interfaces" with
      | none =>
          rw [hli] at h
          injection h with h
          rw [← h]
          exact recMono_refl d
      | some ifs =>
          rw [hli] at h
          replace h : (do
              let members ← pyIter ifs
              foldItems (fieldStep (vrfMemberKey canonical)
                (vrfSetUpd (.dict o))) d members) = .ok d2 := h
          cases hit : pyIter ifs with
          | error e => rw [hit] at h; exact absurd h (by simp [ebind_err])
          | ok members =>
              rw [hit] at h
              simp only [ebind_ok] at h
              exact foldItems_recMono
                (fun d item d2 hs =>
                  fieldStep_recMono
                    (fun it sub sub2 hu =>
                      vrfSetUpd_mono (.dict o) it sub sub2 hu) hs)
                h
  | s st => simp at h
  | i n => simp at h
  | b v => simp at h
  | null => simp at h
  | list l => simp at h

/-- `setdefault` passes only grow a record. -/
theorem setdefaults_mono (dv : List (String × Val)) (rec : Obj) (x : String)
    (hx : hasKey rec x = true) : hasKey (setdefaults dv rec) x = true := by
  induction dv generalizing rec with
  | nil => exact hx
  | cons p rest ih =>
      show hasKey (setdefaults rest
        (if hasKey rec p.1 then rec else dset rec p.1 p.2)) x = true
      by_cases hp : hasKey rec p.1 = true
      · rw [if_pos hp]; exact ih rec hx
      · rw [if_neg hp]; exact ih _ (hasKey_dset_mono p.1 p.2 hx)

/-- The defaults pass fills every default key into the record. -/
theorem setdefaults_fills (dv : List (String × Val)) (rec : Obj) (dk : String)
    (hdk : dk ∈ dv.map Prod.fst) : hasKey (setdefaults dv rec) dk = true := by
  induction dv generalizing rec with
  | nil => simp at hdk
  | cons p rest ih =>
      show hasKey (setdefaults rest
        (if hasKey rec p.1 then rec else dset rec p.1 p.2)) dk = true
      rw [List.map_cons] at hdk
      rcases List.mem_cons.mp hdk with hd | hd
      · rw [hd]
        by_cases hp : hasKey rec p.1 = true
        · rw [if_pos hp]; exact setdefaults_mono rest rec p.1 hp
        · rw [if_neg hp]
          exact setdefaults_mono rest _ p.1 (by simp [hasKey, dlookup_dset_self])
      · by_cases hp : hasKey rec p.1 = true
        · rw [if_pos hp]; exact ih rec hd
        · rw [if_neg hp]; exact ih _ hd

theorem ilookup_applyDefaults (dv : List (String × Val)) (d : IDict)
    (k : String) :
    ilookup (applyDefaults dv d) k = (ilookup d k).map (setdefaults dv) := by
  induction d with
  | nil => rfl
  | cons kv rest ih =>
      obtain ⟨a, w⟩ := kv
      by_cases ha : a = k
      · simp [applyDefaults, ilookup, ha]
      · simpa [applyDefaults, ilookup, ha] using ih

/-- Wrapping only rewrites the `ip_addresses` value, so record keys are
preserved. -/
theorem wrapRecord_mono (rec : Obj) (x : String)
    (hx : hasKey rec x = true) : hasKey (wrapRecord rec) x = true := by
  show hasKey (if pyTruthy ((dlookup rec "ip_addresses").getD (.dict []))
      then dset rec "ip_addresses"
        (.list [(dlookup rec "ip_addresses").getD (.dict [])])
      else rec) x = true
  split
  · exact hasKey_dset_mono "ip_addresses" _ hx
  · exact hx

theorem ilookup_wrapIp (d : IDict) (k : String) :
    ilookup (wrapIp d) k = (ilookup d k).map wrapRecord := by
  induction d with
  | nil => rfl
  | cons kv rest ih =>
      obtain ⟨a, w⟩ := kv
      by_cases ha : a = k
      · simp [wrapIp, ilookup, ha]
      · simpa [wrapIp, ilookup, ha] using ih

theorem wrapIp_keys (d : IDict) : (wrapIp d).map Prod.fst = d.map Prod.fst := by
  simp [wrapIp]

theorem applyDefaults_keys (dv : List (String × Val)) (d : IDict) :
    (applyDefaults dv d).map Prod.fst = d.map Prod.fst := by
  simp [applyDefaults]

/-- Every interface key registered by an IOS attribute pass reaches the
final `interfaces` list with the defaultable fields present. -/
theorem iosCompute_covers (canonical : String → String)
    (typeMap : List (String × String)) (device : Obj) (ifaceList : List Val)
    (gk : Val → Except String String) (gu : Val → Obj → Except String Obj)
    (l : List Val) (item : Val) (k : String)
    (hc : iosCompute canonical typeMap device = .ok ifaceList)
    (hst : (gk, gu, l) ∈ iosStages typeMap device
      ++ [iosModeStage canonical device])
    (hm : item ∈ l) (hgk : gk item = .ok k) :
    ∃ rec, Val.dict [(canonical k, .dict rec)] ∈ ifaceList ∧
      ∀ dk ∈ iosDefaults.map Prod.fst, hasKey rec dk = true := by
  unfold iosCompute at hc
  cases h8 : runStages []
      (iosStages typeMap device ++ [iosModeStage canonical device]) with
  | error e => rw [h8] at hc; exact absurd hc (by simp [ebind_err])
  | ok d8 =>
      rw [h8] at hc
      simp only [ebind_ok] at hc
      cases h10 : foldItems (vrfMergeIos canonical)
          (wrapIp (applyDefaults iosDefaults d8)) (iosVrfList device) with
      | error e => rw [h10] at hc; exact absurd hc (by simp [ebind_err])
      | ok d10 =>
          rw [h10] at hc
          simp only [ebind_ok, pure, Except.pure, Except.ok.injEq] at hc
          have hk8 : hasIKey d8 k = true := by
            obtain ⟨pre, post, hsplit⟩ := List.append_of_mem hst
            rw [hsplit] at h8
            exact runStages_add h8 hm hgk
          obtain ⟨rec8, hrec8⟩ := Option.isSome_iff_exists.mp hk8
          have hrec9 : ilookup (wrapIp (applyDefaults iosDefaults d8)) k
              = some (wrapRecord (setdefaults iosDefaults rec8)) := by
            rw [ilookup_wrapIp, ilookup_applyDefaults, hrec8]
            rfl
          have hkeys9 : ∀ dk ∈ iosDefaults.map Prod.fst,
              hasKey (wrapRecord (setdefaults iosDefaults rec8)) dk = true :=
            fun dk hdk => wrapRecord_mono _ dk (setdefaults_fills _ _ dk hdk)
          have hmono : RecMono (wrapIp (applyDefaults iosDefaults d8)) d10 :=
            foldItems_recMono
              (fun d vrf d2 hs => vrfMergeIos_recMono canonical hs) h10
          obtain ⟨rec10, hrec10, hgrow⟩ := hmono k _ hrec9
          have hsnap : k ∈ (wrapIp (applyDefaults iosDefaults d8)).map Prod.fst :=
            hasIKey_mem_keys (by rw [hasIKey, hrec9]; rfl)
          refine ⟨rec10, ?_, fun dk hdk => hgrow dk (hkeys9 dk hdk)⟩
          rw [← hc]
          have hmem := List.mem_map_of_mem
            (fun k => Val.dict [(canonical k, .dict ((ilookup d10 k).getD []))])
            hsnap
          simpa [hrec10] using hmem

/-- Every interface key registered by an NX-OS attribute pass reaches the
final `interfaces` list with the defaultable fields present. -/
theorem nxosCompute_covers (canonical : String → String)
    (typeMap : List (String × String)) (device : Obj) (ifaceList : List Val)
    (gk : Val → Except String String) (gu : Val → Obj → Except String Obj)
    (l : List Val) (item : Val) (k : String)
    (hc : nxosCompute canonical typeMap device = .ok ifaceList)
    (hst : (gk, gu, l) ∈ nxosStages typeMap device)
    (hm : item ∈ l) (hgk : gk item = .ok k) :
    ∃ rec, Val.dict [(canonical k, .dict rec)] ∈ ifaceList ∧
      ∀ dk ∈ nxosDefaults.map Prod.fst, hasKey rec dk = true := by
  unfold nxosCompute at hc
  cases h8 : runStages [] (nxosStages typeMap device) with
  | error e => rw [h8] at hc; exact absurd hc (by simp [ebind_err])
  | ok d8 =>
      rw [h8] at hc
      simp only [ebind_ok] at hc
      cases hvd : buildVrfDict [] (nxosVrfRds device) with
      | error e => rw [hvd] at hc; exact absurd hc (by simp [ebind_err])
      | ok vd =>
          rw [hvd] at hc
          simp only [ebind_ok] at hc
          cases hvd2 : addVrfInterfaces vd (nxosVrfInterfaces device) with
          | error e => rw [hvd2] at hc; exact absurd hc (by simp [ebind_err])
          | ok vd2 =>
              rw [hvd2] at hc
              simp only [ebind_ok] at hc
              cases h10 : foldItems (vrfMergeNxos canonical)
                  (wrapIp (applyDefaults nxosDefaults d8))
                  (vd2.map (fun kv => Val.dict kv.2)) with
              | error e => rw [h10] at hc; exact absurd hc (by simp [ebind_err])
              | ok d10 =>
                  rw [h10] at hc
                  simp only [ebind_ok, pure, Except.pure, Except.ok.injEq] at hc
                  have hk8 : hasIKey d8 k = true := by
                    obtain ⟨pre, post, hsplit⟩ := List.append_of_mem hst
                    rw [hsplit] at h8
                    exact runStages_add h8 hm hgk
                  obtain ⟨rec8, hrec8⟩ := Option.isSome_iff_exists.mp hk8
                  have hrec9 : ilookup (wrapIp (applyDefaults nxosDefaults d8)) k
                      = some (wrapRecord (setdefaults nxosDefaults rec8)) := by
                    rw [ilookup_wrapIp, ilookup_applyDefaults, hrec8]
                    rfl
                  have hkeys9 : ∀ dk ∈ nxosDefaults.map Prod.fst,
                      hasKey (wrapRecord (setdefaults nxosDefaults rec8)) dk
                        = true :=
                    fun dk hdk =>
                      wrapRecord_mono _ dk (setdefaults_fills _ _ dk hdk)
                  have hmono : RecMono (wrapIp (applyDefaults nxosDefaults d8))
                      d10 :=
                    foldItems_recMono
                      (fun d vrf d2 hs => vrfMergeNxos_recMono canonical hs) h10
                  obtain ⟨rec10, hrec10, hgrow⟩ := hmono k _ hrec9
                  have hsnap : k ∈ (wrapIp (applyDefaults nxosDefaults d8)).map
                      Prod.fst :=
                    hasIKey_mem_keys (by rw [hasIKey, hrec9]; rfl)
                  refine ⟨rec10, ?_, fun dk hdk => hgrow dk (hkeys9 dk hdk)⟩
                  rw [← hc]
                  have hmem := List.mem_map_of_mem
                    (fun k => Val.dict
                      [(canonical k, .dict ((ilookup d10 k).getD []))]) hsnap
                  simpa [hrec10] using hmem

/-- An IOS device aggregate with all nine flat keys but only mtu data. -/
def c3dev : Obj :=
  [("mtu", .list [.dict [("interface", .s "Gi1"), ("mtu", .i 1500)]]),
   ("type", .list []), ("ip_addresses", .list []), ("prefix_length", .list []),
   ("mac_address", .list []), ("description", .list []),
   ("link_status", .list []), ("vrfs", .list []), ("mode", .list [])]

/-- C3 counterexample: an interface supplied only with mtu data ends in
the final `interfaces` output with a record that has *no* `type`,
`mac_address`, `description`, `link_status` or `ip_addresses` keys — only
`lag`, `untagged_vlan`, `tagged_vlans`, `vrf` and `802.1Q_mode` are
default-filled, so the record is partially populated, contradicting the
claimed all-canonical-fields invariant. -/
theorem c3_counterexample :
    iosCompute canonTest tmTest c3dev
      = .ok [.dict [("GigabitEthernet1", .dict
          [("mtu", .i 1500), ("lag", .s ""), ("untagged_vlan", .dict []),
           ("tagged_vlans", .list []), ("vrf", .dict []),
           ("802.1Q_mode", .s "")])]] ∧
    hasKey [("mtu", Val.i 1500), ("lag", .s ""), ("untagged_vlan", .dict []),
      ("tagged_vlans", .list []), ("vrf", .dict []), ("802.1Q_mode", .s "")]
      "type" = false ∧
    hasKey [("mtu", Val.i 1500), ("lag", .s ""), ("untagged_vlan", .dict []),
      ("tagged_vlans", .list []), ("vrf", .dict []), ("802.1Q_mode", .s "")]
      "mac_address" = false ∧
    hasKey [("mtu", Val.i 1500), ("lag", .s ""), ("untagged_vlan", .dict []),
      ("tagged_vlans", .list []), ("vrf", .dict []), ("802.1Q_mode", .s "")]
      "link_status" = false :=
  ⟨rfl, rfl, rfl, rfl⟩

/-- C3 (amended): for both platform normalizers, every interface name
appearing in any of the mtu/type/ip/prefix/mac/description/link-status
attribute lists (under the key the pass computes for it — raw for the
seven shared passes, canonicalized for the IOS vlan-mode pass) appears in
the final `interfaces` output, and its record always carries the
*defaultable* fields (`lag`, `untagged_vlan`, `tagged_vlans`, `vrf`, and
on IOS also `802.1Q_mode`); the remaining canonical fields (`mtu`, `type`,
`ip_addresses`, `mac_address`, `description`, `link_status`) are present
only when supplied, and an interface referenced only by VRF data is not
part of the final list — so records are uniform only in the defaultable
fields, not in all canonical fields. -/
theorem c3_every_listed_interface_covered :
    (∀ (canonical : String → String) (typeMap : List (String × String))
        (device : Obj) (ifaceList : List Val) (gk : Val → Except String String)
        (gu : Val → Obj → Except String Obj) (l : List Val) (item : Val)
        (k : String),
      iosCompute canonical typeMap device = .ok ifaceList →
      (gk, gu, l) ∈ iosStages typeMap device
        ++ [iosModeStage canonical device] →
      item ∈ l → gk item = .ok k →
      ∃ rec, Val.dict [(canonical k, .dict rec)] ∈ ifaceList ∧
        ∀ dk ∈ iosDefaults.map Prod.fst, hasKey rec dk = true) ∧
    (∀ (canonical : String → String) (typeMap : List (String × String))
        (device : Obj) (ifaceList : List Val) (gk : Val → Except String String)
        (gu : Val → Obj → Except String Obj) (l : List Val) (item : Val)
        (k : String),
      nxosCompute canonical typeMap device = .ok ifaceList →
      (gk, gu, l) ∈ nxosStages typeMap device →
      item ∈ l → gk item = .ok k →
      ∃ rec, Val.dict [(canonical k, .dict rec)] ∈ ifaceList ∧
        ∀ dk ∈ nxosDefaults.map Prod.fst, hasKey rec dk = true) :=
  ⟨fun canonical typeMap device ifaceList gk gu l item k hc hst hm hgk =>
      iosCompute_covers canonical typeMap device ifaceList gk gu l item k
        hc hst hm hgk,
   fun canonical typeMap device ifaceList gk gu l item k hc hst hm hgk =>
      nxosCompute_covers canonical typeMap device ifaceList gk gu l item k
        hc hst hm hgk⟩

/-- C3 witness: the amended theorem applied to the concrete `c3dev` run
and its mtu pass, every hypothesis discharged. -/
theorem c3_witness :
    ∃ rec, Val.dict [(canonTest "Gi1", .dict rec)]
        ∈ [Val.dict [("GigabitEthernet1", .dict
            [("mtu", .i 1500), ("lag", .s ""), ("untagged_vlan", .dict []),
             ("tagged_vlans", .list []), ("vrf", .dict []),
             ("802.1Q_mode", .s "")])]] ∧
      ∀ dk ∈ iosDefaults.map Prod.fst, hasKey rec dk = true :=
  c3_every_listed_interface_covered.1 canonTest tmTest c3dev
    [Val.dict [("GigabitEthernet1", .dict
        [("mtu", .i 1500), ("lag", .s ""), ("untagged_vlan", .dict []),
         ("tagged_vlans", .list []), ("vrf", .dict []),
         ("802.1Q_mode", .s "")])]]
    ifaceKey mtuUpd
    (ensure_list ((dlookup c3dev "mtu").getD (.list [])))
    (.dict [("interface", .s "Gi1"), ("mtu", .i 1500)]) "Gi1"
    rfl (List.mem_append_left _ (List.mem_cons_self _ _))
    (List.mem_cons_self _ _) rfl

end Formatter
